import Mathlib

/-!
# WebPy measurement reduction: a shallow embedding of `src/app.js`

The three Python programs that `src/app.js` hands to the interpreter
(`getUpDownScript`, `getA3Script`, `getClassicScript`) reduce sheets of
magnetic-sensor reads to offsets, sensitivities and drifts.

Modelling conventions

* a numeric cell is an `Option ℚ`: `none` is the missing value (`NaN`), `some q`
  a number.  Arithmetic is exact; rounding of binary floating point is outside
  the embedding.
* a data frame is the list of its rows, a computed column a list of cells.
  Index labels are identified with row positions, which is what pandas gives
  when `dropna` removed no row (the default `RangeIndex`).
* a Python loop `for i in range(0, n, g)` is a left fold over
  `List.range' 0 ((n + g - 1) / g) g`.
-/

namespace WebPy

/-! ## Data model -/

/-- One measurement row restricted to `columns_to_keep` (same order as the source). -/
structure Row where
  sample_no : Option ℚ
  angle : Option ℚ
  axis : Option ℚ
  b_stress : Option ℚ
  vdd : Option ℚ
  b_read : Option ℚ
  b_set : Option ℚ
  temp_gauss_probe : Option ℚ
  vdiff_max : Option ℚ
  vdiff_min : Option ℚ
  vdiff_mean : Option ℚ
  vdiff_stdev : Option ℚ
deriving DecidableEq, Repr

/-- A data frame with the default index: row `i` carries label `i`. -/
abbrev Frame := List Row

/-- A computed column of a frame. -/
abbrev Column := List (Option ℚ)

/-- Cell of a column at a position; out of range reads as missing. -/
def cell (col : Column) (i : Nat) : Option ℚ := col[i]?.join

/-- Column `f` of row `i` of a frame; out of range reads as missing. -/
def field (df : Frame) (f : Row → Option ℚ) (i : Nat) : Option ℚ := df[i]?.bind f

/-- Python `range(0, n, g)`. -/
def pyrange (n g : Nat) : List Nat := List.range' 0 ((n + (g - 1)) / g) g

/-! ## Slope Fitter -/

/-- Arithmetic mean of a list of numbers. -/
def mean (xs : List ℚ) : ℚ := xs.sum / xs.length

/-- Modelled from the spec: `np.polyfit(x, y, 1)[0]` is numpy library code and is
not part of `src/`; spec §4.2 gives the slope it computes as
`Σ(x−x̄)(y−ȳ) / Σ(x−x̄)²`. -/
def polyfit_slope (xs ys : List ℚ) : ℚ :=
  (List.zipWith (fun x y => (x - mean xs) * (y - mean ys)) xs ys).sum /
    (xs.map (fun x => (x - mean xs) ^ 2)).sum

/-- Python `np.isnan(v).any()`. -/
def isnan_any (v : List (Option ℚ)) : Bool := v.any Option.isNone

/-- Python `len(set(v))`. -/
def len_set (v : List (Option ℚ)) : Nat := v.dedup.length

/-- The numbers of a window known to contain no missing value. -/
def values (v : List (Option ℚ)) : List ℚ := v.reduceOption

/-- The guarded fit of protocols A and B (`src/app.js` 267-273, 559-568):
`sens = nan; if not (isnan(vdiff).any() or isnan(b_set).any()) and len(set(b_set)) > 1:
sens, _ = np.polyfit(b_set, vdiff, 1)`. -/
def window_slope (b_set vdiff : List (Option ℚ)) : Option ℚ :=
  if !(isnan_any vdiff || isnan_any b_set) && decide (len_set b_set > 1) then
    some (polyfit_slope (values b_set) (values vdiff))
  else none

/-- Spec §4.2, preconditions of the Slope Fitter in the spec's words: neither
sequence contains a missing value and `x` contains at least two distinct values. -/
def spec_window_defined (x y : List (Option ℚ)) : Prop :=
  (∀ c ∈ x, c ≠ none) ∧ (∀ c ∈ y, c ≠ none) ∧ ∃ u ∈ x, ∃ v ∈ x, u ≠ v

instance spec_window_defined_decidable (x y : List (Option ℚ)) :
    Decidable (spec_window_defined x y) := by
  unfold spec_window_defined
  infer_instance

/-! ## Group Segmenter -/

/-- A row that is empty across all of `columns_to_keep`. -/
def Row.all_missing (r : Row) : Bool :=
  r.sample_no.isNone && r.angle.isNone && r.axis.isNone && r.b_stress.isNone &&
  r.vdd.isNone && r.b_read.isNone && r.b_set.isNone && r.temp_gauss_probe.isNone &&
  r.vdiff_max.isNone && r.vdiff_min.isNone && r.vdiff_mean.isNone && r.vdiff_stdev.isNone

/-- Python `df.dropna(how='all', subset=columns_to_keep)`. -/
def dropna_all (rows : Frame) : Frame := rows.filter (fun r => !r.all_missing)

/-- Python `np.repeat(vals, g)`: every element repeated `g` times, in order. -/
def np_repeat {α : Type} (vals : List α) (g : Nat) : List α :=
  vals.flatMap (fun v => List.replicate g v)

/-- Python `np.repeat(vdiff_data[col].values, g)[:len(vdiff_data)]`. -/
def expand {α : Type} (vals : List α) (g : Nat) : List α :=
  (np_repeat vals g).take vals.length

/-- The loop over `columns_to_expand = ["Axis", "Angle", "B_stress[mT]", "Vdd[V]"]`
(`src/app.js` 210-212, 534-536, 720-722), one column assignment after the other. -/
def expand_columns (g : Nat) (df : Frame) : Frame :=
  let df1 := List.zipWith (fun r v => { r with axis := v }) df (expand (df.map Row.axis) g)
  let df2 := List.zipWith (fun r v => { r with angle := v }) df1 (expand (df1.map Row.angle) g)
  let df3 := List.zipWith (fun r v => { r with b_stress := v }) df2
    (expand (df2.map Row.b_stress) g)
  List.zipWith (fun r v => { r with vdd := v }) df3 (expand (df3.map Row.vdd) g)

/-- Python `s.fillna(v)` on one cell: a missing cell takes `v` (which may be missing). -/
def fillna (v : Option ℚ) (x : Option ℚ) : Option ℚ :=
  match x with
  | some q => some q
  | none => v

/-- Sample-number handling (`src/app.js` 214-216):
`sample_no_value = vdiff_data["Sample No"].iloc[0]` (an `IndexError` on an empty
frame, modelled by `none`), `fillna(sample_no_value)`, then blanking of
`Sample No` where `Axis` is missing. -/
def fill_sample_no (df : Frame) : Option Frame :=
  match df with
  | [] => none
  | r0 :: _ =>
    let sample_no_value := r0.sample_no
    let df1 := df.map (fun r => { r with sample_no := fillna sample_no_value r.sample_no })
    some (df1.map (fun r => if r.axis.isNone then { r with sample_no := none } else r))

/-- The Group Segmenter for group size `g`: column expansion, then sample numbers. -/
def segment (g : Nat) (df : Frame) : Option Frame := fill_sample_no (expand_columns g df)

/-! ## Offset Calculator (protocol A) -/

/-- Python `(off_d + off_u) / 2` on cells: missing if either operand is missing. -/
def nan_avg (x y : Option ℚ) : Option ℚ :=
  match x, y with
  | some p, some q => some ((p + q) / 2)
  | _, _ => none

/-- The `Off_DU[mV]` column (`src/app.js` 218-229). -/
def off_du_column (df : Frame) : Column :=
  (pyrange df.length 5).foldl
    (fun col i =>
      if i + 4 < df.length then
        col.set i (nan_avg (field df Row.vdiff_mean (i + 1)) (field df Row.vdiff_mean (i + 3)))
      else col)
    (List.replicate df.length none)

/-! ## Reference Resolver and drifts (protocol A) -/

/-- Group key of a row for `groupby(["Sample No", "Axis"])`; rows with a missing
key cell belong to no group (pandas drops them). -/
def Row.key (r : Row) : Option (ℚ × ℚ) :=
  match r.sample_no, r.axis with
  | some s, some a => some (s, a)
  | _, _ => none

/-- Order in which `groupby` visits its keys (lexicographic, ascending). -/
def key_le (a b : ℚ × ℚ) : Prop := a.1 < b.1 ∨ (a.1 = b.1 ∧ a.2 ≤ b.2)

instance key_le_decidable : DecidableRel key_le := fun a b => by
  unfold key_le
  infer_instance

/-- The keys of `groupby(["Sample No", "Axis"])`, in visiting order. -/
def group_keys (df : Frame) : List (ℚ × ℚ) :=
  List.insertionSort key_le (df.filterMap Row.key).dedup

/-- Python `group.index.tolist()`: the rows of one group, in frame order. -/
def group_indices (df : Frame) (k : ℚ × ℚ) : List Nat :=
  (List.range df.length).filter (fun j => decide (df[j]?.bind Row.key = some k))

/-- The reference of one group for a computed column (`src/app.js` 235-241, 292-298):
rows of the group with `B_stress[mT] == 10`, their column values with the
missing ones dropped, first of them if any. -/
def resolve_ref (df : Frame) (col : Column) (group_idx : List Nat) : Option ℚ :=
  let stress_10 := group_idx.filter (fun j => decide (field df Row.b_stress j = some 10))
  let vals := stress_10.filterMap (fun j => cell col j)
  vals.head?

/-- Body of the `Off_drift_DU[mV]` loop for one group (`src/app.js` 233-247). -/
def off_drift_group (df : Frame) (off_du : Column) (drift : Column) (k : ℚ × ℚ) : Column :=
  let group_idx := group_indices df k
  let off_du_ref := resolve_ref df off_du group_idx
  (pyrange group_idx.length 5).foldl
    (fun d i =>
      if i < group_idx.length then
        let idx := group_idx.getD i 0
        match off_du_ref, cell off_du idx with
        | some r, some o => d.set idx (some (o - r))
        | _, _ => d
      else d)
    drift

/-- The `Off_drift_DU[mV]` column. -/
def off_drift_column (df : Frame) (off_du : Column) : Column :=
  (group_keys df).foldl (off_drift_group df off_du) (List.replicate df.length none)

/-! ## Sensitivity (protocol A) -/

/-- Python `(sens_d + sens_u) / 2 if not (isnan(sens_d) or isnan(sens_u)) else nan`. -/
def sens_avg (x y : Option ℚ) : Option ℚ :=
  match x, y with
  | some p, some q => some ((p + q) / 2)
  | _, _ => none

/-- Sensitivity of one block `group = sensitivity_data.iloc[i:i+5]`
(`src/app.js` 262-278): down window `iloc[0:3]`, up window `iloc[2:5]`. -/
def sens_du_block (group : Frame) : Option ℚ :=
  let d_b_set := (group.take 3).map Row.b_set
  let d_vdiff := (group.take 3).map Row.vdiff_mean
  let u_b_set := ((group.drop 2).take 3).map Row.b_set
  let u_vdiff := ((group.drop 2).take 3).map Row.vdiff_mean
  sens_avg (window_slope d_b_set d_vdiff) (window_slope u_b_set u_vdiff)

/-- The `Sens_DU[mV/mT]` column (`src/app.js` 255-286). -/
def sens_du_column (df : Frame) : Column :=
  (pyrange df.length 5).foldl
    (fun col i =>
      if i + 4 < df.length then
        let sens_du := sens_du_block ((df.drop i).take 5)
        (List.range 5).foldl
          (fun c j => if i + j < df.length then c.set (i + j) sens_du else c) col
      else col)
    (List.replicate df.length none)

/-- Body of the `Sens_drift_DU[%]` loop for one group (`src/app.js` 290-303). -/
def sens_drift_group (df : Frame) (sens_du : Column) (drift : Column) (k : ℚ × ℚ) : Column :=
  let group_idx := group_indices df k
  let sens_du_ref := resolve_ref df sens_du group_idx
  group_idx.foldl
    (fun d idx =>
      match sens_du_ref, cell sens_du idx with
      | some r, some s => if r ≠ 0 then d.set idx (some ((s - r) / r * 100)) else d
      | _, _ => d)
    drift

/-- The `Sens_drift_DU[%]` column. -/
def sens_drift_column (df : Frame) (sens_du : Column) : Column :=
  (group_keys df).foldl (sens_drift_group df sens_du) (List.replicate df.length none)

/-! ## Protocol C slope -/

/-- A cell of the output workbook as read back: empty, a number or a string. -/
inductive Cell where
  | empty : Cell
  | num : ℚ → Cell
  | str : String → Cell
deriving DecidableEq, Repr

/-- A data row of the final `Vdiff_data` table. `Sample No` and `Plane` are the two
columns the Code Mapper may turn into labels; the other columns hold numbers or
nothing, so `pd.to_numeric(errors='coerce')` leaves them as they are. -/
structure VdiffRecord where
  sample_no : Cell
  angle : Option ℚ
  plane : Cell
  stress : Option ℚ
  vdd : Option ℚ
  b_read : Option ℚ
  b_set : Option ℚ
  temp_gauss_probe : Option ℚ
  vdiff_max : Option ℚ
  vdiff_min : Option ℚ
  vdiff_mean : Option ℚ
  vdiff_stdev : Option ℚ
  off_du : Option ℚ
  off_drift_du : Option ℚ
deriving DecidableEq, Repr

/-- A data row of the final `Sensitivity_data` table of protocol A. -/
structure SensRecord where
  sample_no : Cell
  angle : Option ℚ
  plane : Cell
  stress : Option ℚ
  vdd : Option ℚ
  b_read : Option ℚ
  b_set : Option ℚ
  temp_gauss_probe : Option ℚ
  vdiff_max : Option ℚ
  vdiff_min : Option ℚ
  vdiff_mean : Option ℚ
  vdiff_stdev : Option ℚ
  sens_du : Option ℚ
  sens_drift_du : Option ℚ
deriving DecidableEq, Repr

/-- One dictionary appended to `summary` (`src/app.js` 372-379, 399-406). -/
structure SummaryEntry where
  sample_no : Cell
  plane : Cell
  stress : ℚ
  angle : Option ℚ
  value : ℚ
  kind : String
deriving DecidableEq, Repr

/-- The scan of `Vdiff_data` (`src/app.js` 366-379): rows with
`Magnetic Field Set[mT] == 47`, then the tests on stress and drift. -/
def summary_vdiff (vdiff_df : List VdiffRecord) : List SummaryEntry :=
  let vdiff_47 := vdiff_df.filter (fun row => decide (row.b_set = some 47))
  vdiff_47.filterMap (fun row =>
    match row.stress, row.off_drift_du with
    | some stress, some drift_val =>
      if stress < 120 then
        if drift_val < -2.5 ∨ drift_val > 2.5 then
          some { sample_no := row.sample_no, plane := row.plane, stress := stress,
                 angle := row.angle, value := drift_val, kind := "Vdiff" }
        else none
      else none
    | _, _ => none)

/-- The scan of `Sensitivity_data` (`src/app.js` 394-406). -/
def summary_sens (sens_df : List SensRecord) : List SummaryEntry :=
  sens_df.filterMap (fun row =>
    match row.stress, row.sens_drift_du with
    | some stress, some drift_val =>
      if stress < 120 then
        if drift_val < -3 ∨ drift_val > 3 then
          some { sample_no := row.sample_no, plane := row.plane, stress := stress,
                 angle := row.angle, value := drift_val, kind := "Sensitivity" }
        else none
      else none
    | _, _ => none)

/-- Spec §4.8, Offset criterion: field set is 47, stress is below 120, the offset
drift is defined and its absolute value exceeds 2.5. -/
def spec_offset_flagged (row : VdiffRecord) : Prop :=
  row.b_set = some 47 ∧
  match row.stress, row.off_drift_du with
  | some stress, some drift => stress < 120 ∧ |drift| > 2.5
  | _, _ => False

instance spec_offset_flagged_decidable (row : VdiffRecord) :
    Decidable (spec_offset_flagged row) := by
  unfold spec_offset_flagged
  cases row.stress <;> cases row.off_drift_du <;> infer_instance

/-- Spec §4.8, Sensitivity criterion: stress is below 120, the sensitivity drift is
defined and its absolute value exceeds 3. -/
def spec_sens_flagged (row : SensRecord) : Prop :=
  match row.stress, row.sens_drift_du with
  | some stress, some drift => stress < 120 ∧ |drift| > 3
  | _, _ => False

instance spec_sens_flagged_decidable (row : SensRecord) :
    Decidable (spec_sens_flagged row) := by
  unfold spec_sens_flagged
  cases row.stress <;> cases row.sens_drift_du <;> infer_instance

/-- The Offset entry of a flagged row of `Vdiff_data`. -/
def offset_entry (row : VdiffRecord) : SummaryEntry :=
  { sample_no := row.sample_no, plane := row.plane, stress := row.stress.getD 0,
    angle := row.angle, value := row.off_drift_du.getD 0, kind := "Vdiff" }

/-- The Sensitivity entry of a flagged row of `Sensitivity_data`. -/
def sens_entry (row : SensRecord) : SummaryEntry :=
  { sample_no := row.sample_no, plane := row.plane, stress := row.stress.getD 0,
    angle := row.angle, value := row.sens_drift_du.getD 0, kind := "Sensitivity" }

/-! ## Drift in the spec's words -/

/-- Spec §4.5, offset drift of a row: `block_offset − reference_offset` of the row's
(sample, axis) partition, only where both are defined. -/
def spec_off_drift (df : Frame) (off_du : Column) (j : Nat) : Option ℚ :=
  match df[j]?.bind Row.key with
  | none => none
  | some k =>
    match resolve_ref df off_du (group_indices df k), cell off_du j with
    | some r, some o => some (o - r)
    | _, _ => none

/-- Spec §4.5, sensitivity drift of a row in percent:
`(block_sens − reference_sens) / reference_sens × 100`, only where both are defined
and the reference is not 0. -/
def spec_sens_drift (df : Frame) (sens_du : Column) (j : Nat) : Option ℚ :=
  match df[j]?.bind Row.key with
  | none => none
  | some k =>
    match resolve_ref df sens_du (group_indices df k), cell sens_du j with
    | some r, some s => if r ≠ 0 then some ((s - r) / r * 100) else none
    | _, _ => none

/-- Row `j` sits at a position that is a multiple of 5 in the row list of group `k`. -/
def rank_aligned (df : Frame) (k : ℚ × ℚ) (j : Nat) : Prop :=
  ∃ i, i % 5 = 0 ∧ i < (group_indices df k).length ∧ (group_indices df k).getD i 0 = j

/-! ## Sensitivity (protocol B) -/

/-- Spec §4.2, rows `[i : i+3]` of one column of a sheet. -/
def spec_window (sheet : Frame) (f : Row → Option ℚ) (i : Nat) : List (Option ℚ) :=
  [field sheet f i, field sheet f (i + 1), field sheet f (i + 2)]

/-- A pandas value as the cell it becomes in the output workbook. -/
def to_cell (x : Option ℚ) : Cell :=
  match x with
  | some q => Cell.num q
  | none => Cell.empty

/-- A row of `vdiff_data` of protocol A with `Off_DU[mV]` and `Off_drift_DU[mV]`. -/
def vdiff_record (r : Row) (off_du off_drift_du : Option ℚ) : VdiffRecord :=
  { sample_no := to_cell r.sample_no, angle := r.angle, plane := to_cell r.axis,
    stress := r.b_stress, vdd := r.vdd, b_read := r.b_read, b_set := r.b_set,
    temp_gauss_probe := r.temp_gauss_probe, vdiff_max := r.vdiff_max,
    vdiff_min := r.vdiff_min, vdiff_mean := r.vdiff_mean, vdiff_stdev := r.vdiff_stdev,
    off_du := off_du, off_drift_du := off_drift_du }

/-- A row of `sensitivity_data` of protocol A with `Sens_DU` and `Sens_drift_DU[%]`. -/
def sens_record (r : Row) (sens_du sens_drift_du : Option ℚ) : SensRecord :=
  { sample_no := to_cell r.sample_no, angle := r.angle, plane := to_cell r.axis,
    stress := r.b_stress, vdd := r.vdd, b_read := r.b_read, b_set := r.b_set,
    temp_gauss_probe := r.temp_gauss_probe, vdiff_max := r.vdiff_max,
    vdiff_min := r.vdiff_min, vdiff_mean := r.vdiff_mean, vdiff_stdev := r.vdiff_stdev,
    sens_du := sens_du, sens_drift_du := sens_drift_du }

/-- The per-sheet `vdiff_data` of protocol A, all rows kept (`src/app.js` 218-247). -/
def updown_vdiff_table (df : Frame) : List VdiffRecord :=
  (List.range df.length).filterMap (fun i =>
    df[i]?.map (fun r =>
      vdiff_record r (cell (off_du_column df) i)
        (cell (off_drift_column df (off_du_column df)) i)))

/-- The list `filtered_indices` (`src/app.js` 310-313, 584-587) for group size `g`,
frame length `n` and the primary sensitivity column. -/
def filtered_indices (g n : Nat) (col : Column) : List Nat :=
  (pyrange n g).filter (fun i => decide (i < n) && (cell col i).isSome)

/-- The per-sheet sensitivity table of protocol A:
`sensitivity_data.iloc[filtered_indices]` (`src/app.js` 315). -/
def updown_sensitivity_table (df : Frame) : List SensRecord :=
  (filtered_indices 5 df.length (sens_du_column df)).filterMap (fun i =>
    df[i]?.map (fun r =>
      sens_record r (cell (sens_du_column df) i)
        (cell (sens_drift_column df (sens_du_column df)) i)))

/-- A Python dict with integer keys and string labels (`sample_mapping`,
`axis_mapping` after `{int(k): v ...}`), in insertion order; the keys are distinct. -/
abbrev CodeMapping := List (Int × String)

/-- Python `mapping[value]` guarded by `value in mapping`: a number equal to an
integer key finds its label; a string or an empty cell is never a key. -/
def mapping_get (m : CodeMapping) (value : Cell) : Option String :=
  match value with
  | Cell.num q => (m.find? (fun kv => decide ((kv.1 : ℚ) = q))).map (fun kv => kv.2)
  | Cell.str _ => none
  | Cell.empty => none

/-- One cell of the mapping loop (`src/app.js` 344-348):
`if cell.value in mapping: cell.value = mapping[cell.value]`. -/
def map_cell (m : CodeMapping) (value : Cell) : Cell :=
  match mapping_get m value with
  | some label => Cell.str label
  | none => value

/-- The mapping loop over the data rows of `Vdiff_data`: column A is the sample
number, column C the axis. -/
def code_mapper_vdiff (sample_mapping axis_mapping : CodeMapping) (t : List VdiffRecord) :
    List VdiffRecord :=
  t.map (fun row =>
    { row with sample_no := map_cell sample_mapping row.sample_no,
               plane := map_cell axis_mapping row.plane })

/-- The mapping loop over the data rows of `Sensitivity_data`. -/
def code_mapper_sens (sample_mapping axis_mapping : CodeMapping) (t : List SensRecord) :
    List SensRecord :=
  t.map (fun row =>
    { row with sample_no := map_cell sample_mapping row.sample_no,
               plane := map_cell axis_mapping row.plane })

/-! ## Summary sheet -/

/-- One sheet of the input workbook as `input_workbook.parse(sheet_name)` gives it:
its name and its rows over `columns_to_keep`; `none` stands for a sheet that lacks
one of these columns, on which `df.dropna(how='all', subset=columns_to_keep)` raises
`KeyError`. -/
structure Sheet where
  name : String
  table : Option Frame
deriving Repr

/-- Python `s.lower()` on the characters that can produce a letter of `"precon"`
(only the ASCII capitals do). -/
def py_lower (s : List Char) : List Char := s.map Char.toLower

/-- Python `"precon" in sheet_name.lower()`. -/
def is_precon (sheet_name : String) : Bool :=
  decide (List.IsInfix "precon".toList (py_lower sheet_name.toList))

/-- The body of the sheet loop of protocol A for one sheet (`src/app.js` 198-325);
`none` is an uncaught exception: `KeyError` for an absent column, `IndexError` at
`vdiff_data["Sample No"].iloc[0]` when no row is left. Index labels are taken as
positions, which is exact when `dropna` removes no row. -/
def process_sheet_updown (sheet : Sheet) : Option (List VdiffRecord × List SensRecord) :=
  match sheet.table with
  | none => none
  | some rows =>
    match segment 5 (dropna_all rows) with
    | none => none
    | some df => some (updown_vdiff_table df, updown_sensitivity_table df)

/-- A row of `Vdiff_data` that `dropna(how="all")` removes. -/
def VdiffRecord.all_empty (r : VdiffRecord) : Bool :=
  decide (r.sample_no = Cell.empty) && r.angle.isNone && decide (r.plane = Cell.empty) &&
  r.stress.isNone && r.vdd.isNone && r.b_read.isNone && r.b_set.isNone &&
  r.temp_gauss_probe.isNone && r.vdiff_max.isNone && r.vdiff_min.isNone &&
  r.vdiff_mean.isNone && r.vdiff_stdev.isNone && r.off_du.isNone && r.off_drift_du.isNone

/-- A row of `Sensitivity_data` that `dropna(how="all")` removes. -/
def SensRecord.all_empty (r : SensRecord) : Bool :=
  decide (r.sample_no = Cell.empty) && r.angle.isNone && decide (r.plane = Cell.empty) &&
  r.stress.isNone && r.vdd.isNone && r.b_read.isNone && r.b_set.isNone &&
  r.temp_gauss_probe.isNone && r.vdiff_max.isNone && r.vdiff_min.isNone &&
  r.vdiff_mean.isNone && r.vdiff_stdev.isNone && r.sens_du.isNone && r.sens_drift_du.isNone

/-- The loop `for sheet_name in sheet_names[2:]` (`src/app.js` 193-328) from the
running totals `all_vdiff_data`, `all_sensitivity_data`; an exception in one sheet
ends the loop with that exception. -/
def sheet_loop_updown :
    List Sheet → List VdiffRecord × List SensRecord →
      Option (List VdiffRecord × List SensRecord)
  | [], all => some all
  | sheet :: rest, all =>
    if is_precon sheet.name then sheet_loop_updown rest all
    else
      match process_sheet_updown sheet with
      | none => none
      | some t => sheet_loop_updown rest (all.1 ++ t.1, all.2 ++ t.2)

/-- The tables `process_excel_file` of protocol A writes to the workbook
(`src/app.js` 190-335): the loop over the sheets after the first two, then
`dropna(how="all")` on both totals. -/
def process_excel_file_updown (workbook : List Sheet) :
    Option (List VdiffRecord × List SensRecord) :=
  (sheet_loop_updown (workbook.drop 2) ([], [])).map (fun all =>
    (all.1.filter (fun r => !r.all_empty), all.2.filter (fun r => !r.all_empty)))

/-- Spec §7, a structurally sound sheet: all required columns are present and at
least one row is not empty. -/
def spec_well_formed (sheet : Sheet) : Prop :=
  match sheet.table with
  | some rows => dropna_all rows ≠ []
  | none => False

instance spec_well_formed_decidable (sheet : Sheet) : Decidable (spec_well_formed sheet) := by
  unfold spec_well_formed
  cases sheet.table <;> infer_instance

/-- Spec §4.9, the sheets the Orchestrator processes: those after the first two
whose lower-cased name does not contain `"precon"`. -/
def spec_selected (workbook : List Sheet) : List Sheet :=
  (workbook.drop 2).filter (fun sheet => !is_precon sheet.name)

/-! ## Two runs -/

/-- Spec §4.4, row `j` supplies the reference `v` of partition `k` for a computed
column: it is the first row of the partition, in row order, at stress exactly 10
with a value in that column. -/
def spec_supplies_reference (df : Frame) (col : Column) (k : ℚ × ℚ) (j : Nat) (v : ℚ) :
    Prop :=
  df[j]?.bind Row.key = some k ∧ field df Row.b_stress j = some 10 ∧ cell col j = some v ∧
  ∀ j', j' < j → df[j']?.bind Row.key = some k → field df Row.b_stress j' = some 10 →
    cell col j' = none

instance spec_supplies_reference_decidable (df : Frame) (col : Column) (k : ℚ × ℚ) (j : Nat)
    (v : ℚ) : Decidable (spec_supplies_reference df col k j v) := by
  unfold spec_supplies_reference
  infer_instance

/-! ## Fixtures -/

/-- A row with the cells the reductions read; the other cells are missing. -/
def reading (sample_no axis b_stress b_read b_set vdiff_mean : Option ℚ) : Row :=
  { sample_no := sample_no, angle := none, axis := axis, b_stress := b_stress, vdd := none,
    b_read := b_read, b_set := b_set, temp_gauss_probe := none, vdiff_max := none,
    vdiff_min := none, vdiff_mean := vdiff_mean, vdiff_stdev := none }

/-- A sheet whose `Axis` column differs on every row: six rows, group size 5. -/
def c4_sheet : Frame :=
  (List.range 6).map (fun i =>
    { sample_no := some 1, angle := none, axis := some (i + 1), b_stress := none, vdd := none,
      b_read := none, b_set := none, temp_gauss_probe := none, vdiff_max := none,
      vdiff_min := none, vdiff_mean := none, vdiff_stdev := none })

/-- A four-row sheet with two sample numbers and gaps after each. -/
def c5_sheet : Frame :=
  [some 1, none, some 2, none].map (fun s =>
    { sample_no := s, angle := none, axis := some 1, b_stress := none, vdd := none,
      b_read := none, b_set := none, temp_gauss_probe := none, vdiff_max := none,
      vdiff_min := none, vdiff_mean := none, vdiff_stdev := none })

/-- A protocol A sheet: two complete blocks (stress 10 and 20, listed on the first
two rows) and one trailing row. -/
def updown_sheet : Frame :=
  [reading (some 7) (some 1) (some 10) none (some 0) (some 0),
   reading none (some 1) (some 20) none (some 5) (some 10),
   reading none none none none (some 10) (some 20),
   reading none none none none (some 5) (some 12),
   reading none none none none (some 0) (some 1),
   reading none none none none (some 0) (some 0),
   reading none none none none (some 5) (some 11),
   reading none none none none (some 10) (some 20),
   reading none none none none (some 5) none,
   reading none none none none (some 0) (some 1),
   reading none none none none (some 0) (some 3)]

/-- A protocol A sheet whose second row carries another sample number: the rows of
partition (7, 1) are 0, 2, 3, ..., 9. -/
def misaligned_sheet : Frame :=
  [reading (some 7) (some 1) (some 10) none (some 0) (some 0),
   reading (some 8) (some 1) (some 20) none (some 5) (some 10),
   reading none none none none (some 10) (some 20),
   reading none none none none (some 5) (some 12),
   reading none none none none (some 0) (some 1),
   reading none none none none (some 0) (some 0),
   reading none none none none (some 5) (some 11),
   reading none none none none (some 10) (some 20),
   reading none none none none (some 5) (some 12),
   reading none none none none (some 0) (some 1)]

/-- A protocol A sheet with one sample number: two complete blocks at stress 10
and 20. -/
def aligned_sheet : Frame :=
  [reading (some 7) (some 1) (some 10) none (some 0) (some 0),
   reading none (some 1) (some 20) none (some 5) (some 10),
   reading none none none none (some 10) (some 20),
   reading none none none none (some 5) (some 12),
   reading none none none none (some 0) (some 1),
   reading none none none none (some 0) (some 0),
   reading none none none none (some 5) (some 11),
   reading none none none none (some 10) (some 20),
   reading none none none none (some 5) (some 12),
   reading none none none none (some 0) (some 1)]

/-- The segmented `aligned_sheet`. -/
def aligned_frame : Frame := (segment 5 (dropna_all aligned_sheet)).getD []

/-- A row of `Vdiff_data` at field set 47 and stress 10 with the given offset drift. -/
def drift_row (drift : ℚ) : VdiffRecord :=
  { sample_no := Cell.str "S7", angle := some 0, plane := Cell.str "XY", stress := some 10,
    vdd := none, b_read := none, b_set := some 47, temp_gauss_probe := none,
    vdiff_max := none, vdiff_min := none, vdiff_mean := none, vdiff_stdev := none,
    off_du := none, off_drift_du := some drift }

/-- A protocol A sheet of one complete block and a sixth row that holds only an
angle; the segmenter overwrites that angle with the one of row 1, which is missing. -/
def hollow_sheet : Frame :=
  [reading (some 7) (some 1) (some 10) none (some 0) (some 0),
   reading none none none none (some 5) (some 10),
   reading none none none none (some 10) (some 20),
   reading none none none none (some 5) (some 12),
   reading none none none none (some 0) (some 1),
   { reading none none none none none none with angle := some 45 }]

/-- A workbook whose processed sheets are sound. -/
def good_workbook : List Sheet :=
  [{ name := "Info", table := none }, { name := "Setup", table := none },
   { name := "PreCon 1", table := none },
   { name := "Sample 7", table := some aligned_sheet },
   { name := "Sample 8", table := some updown_sheet }]

/-- A workbook whose only processed sheet is `hollow_sheet`. -/
def hollow_workbook : List Sheet :=
  [{ name := "Info", table := none }, { name := "Setup", table := none },
   { name := "Sample 7", table := some hollow_sheet }]

theorem sum_sq_dev_nonneg (m : ℚ) (xs : List ℚ) :
    0 ≤ (xs.map (fun x => (x - m) ^ 2)).sum := by
  induction xs with
  | nil => simp
  | cons x xs ih =>
    simp only [List.map_cons, List.sum_cons]
    have := sq_nonneg (x - m)
    linarith

theorem sum_sq_dev_pos (m : ℚ) (xs : List ℚ) (u : ℚ) (hu : u ∈ xs) (hne : u ≠ m) :
    0 < (xs.map (fun x => (x - m) ^ 2)).sum := by
  induction xs with
  | nil => simp at hu
  | cons x xs ih =>
    simp only [List.map_cons, List.sum_cons]
    rcases List.mem_cons.mp hu with h | h
    · subst h
      have h1 : 0 < (u - m) ^ 2 := by
        have : u - m ≠ 0 := sub_ne_zero.mpr hne
        positivity
      have h2 := sum_sq_dev_nonneg m xs
      linarith
    · have h1 := sq_nonneg (x - m)
      have h2 := ih h
      linarith

theorem sum_sq_dev_ne_zero (xs : List ℚ) (hd : ∃ u ∈ xs, ∃ v ∈ xs, u ≠ v) :
    (xs.map (fun x => (x - mean xs) ^ 2)).sum ≠ 0 := by
  obtain ⟨u, hu, v, hv, huv⟩ := hd
  by_cases h : u = mean xs
  · have hv' : v ≠ mean xs := fun e => huv (h.trans e.symm)
    exact ne_of_gt (sum_sq_dev_pos _ xs v hv hv')
  · exact ne_of_gt (sum_sq_dev_pos _ xs u hu h)

theorem sum_map_affine (a b : ℚ) (xs : List ℚ) :
    (xs.map (fun x => a * x + b)).sum = a * xs.sum + xs.length * b := by
  induction xs with
  | nil => simp
  | cons x xs ih =>
    simp only [List.map_cons, List.sum_cons, List.length_cons, ih]
    push_cast
    ring

theorem mean_map_affine (a b : ℚ) (xs : List ℚ) (hne : xs ≠ []) :
    mean (xs.map (fun x => a * x + b)) = a * mean xs + b := by
  have hlen : (xs.length : ℚ) ≠ 0 := by
    have : xs.length ≠ 0 := by
      intro h
      exact hne (List.length_eq_zero.mp h)
    exact_mod_cast this
  unfold mean
  rw [sum_map_affine, List.length_map]
  field_simp
  ring

theorem sum_zipWith_affine (a m c : ℚ) (xs : List ℚ) :
    (List.zipWith (fun x y => (x - m) * (y - (a * m + c))) xs
        (xs.map (fun x => a * x + c))).sum
      = a * (xs.map (fun x => (x - m) ^ 2)).sum := by
  induction xs with
  | nil => simp
  | cons x xs ih =>
    simp only [List.map_cons, List.zipWith_cons_cons, List.sum_cons, ih]
    ring

theorem polyfit_slope_affine (a b : ℚ) (xs : List ℚ) (hd : ∃ u ∈ xs, ∃ v ∈ xs, u ≠ v) :
    polyfit_slope xs (xs.map (fun x => a * x + b)) = a := by
  have hne : xs ≠ [] := by
    obtain ⟨u, hu, _⟩ := hd
    exact List.ne_nil_of_mem hu
  unfold polyfit_slope
  rw [mean_map_affine a b xs hne, sum_zipWith_affine]
  exact mul_div_cancel_right₀ a (sum_sq_dev_ne_zero xs hd)

theorem isnan_any_map_some (xs : List ℚ) : isnan_any (xs.map some) = false := by
  induction xs with
  | nil => rfl
  | cons x xs ih => simp [isnan_any]

theorem values_map_some (xs : List ℚ) : values (xs.map some) = xs := by
  induction xs with
  | nil => rfl
  | cons x xs ih =>
    simp only [values] at ih
    simp [values, List.reduceOption_cons_of_some, ih]

theorem len_set_map_some (xs : List ℚ) : len_set (xs.map some) = xs.dedup.length := by
  unfold len_set
  rw [List.dedup_map_of_injective (Option.some_injective ℚ), List.length_map]

theorem one_lt_dedup_length_iff {α : Type} [DecidableEq α] (xs : List α) :
    1 < xs.dedup.length ↔ ∃ u ∈ xs, ∃ v ∈ xs, u ≠ v := by
  constructor
  · intro h
    match hx : xs.dedup, h with
    | u :: v :: t, _ =>
      have hnd : (u :: v :: t).Nodup := hx ▸ List.nodup_dedup xs
      have hu : u ∈ xs := List.mem_dedup.mp (hx ▸ List.mem_cons_self u _)
      have hv : v ∈ xs :=
        List.mem_dedup.mp (hx ▸ List.mem_cons_of_mem u (List.mem_cons_self v _))
      refine ⟨u, hu, v, hv, ?_⟩
      intro e
      rw [e] at hnd
      exact (List.nodup_cons.mp hnd).1 (List.mem_cons_self v _)
  · rintro ⟨u, hu, v, hv, huv⟩
    have hsub : [u, v] ⊆ xs.dedup := by
      intro z hz
      simp only [List.mem_cons, List.mem_singleton, List.not_mem_nil, or_false] at hz
      rcases hz with rfl | rfl
      · exact List.mem_dedup.mpr hu
      · exact List.mem_dedup.mpr hv
    have hnd : [u, v].Nodup := by simp [huv]
    have := (List.subperm_of_subset hnd hsub).length_le
    simpa using this

/-! ## Loops as folds -/

theorem foldl_invariant {σ ι : Type} (Inv : σ → Prop) (step : σ → ι → σ) (l : List ι)
    (s : σ) (h0 : Inv s) (hstep : ∀ t i, i ∈ l → Inv t → Inv (step t i)) :
    Inv (l.foldl step s) := by
  induction l generalizing s with
  | nil => exact h0
  | cons a l ih =>
    simp only [List.foldl_cons]
    apply ih
    · exact hstep s a (List.mem_cons_self a l) h0
    · intro t i hi ht
      exact hstep t i (List.mem_cons_of_mem a hi) ht

theorem foldl_eventually {σ ι : Type} (Inv Q : σ → Prop) (step : σ → ι → σ) (l : List ι)
    (s : σ) (h0 : Inv s) (hinv : ∀ t i, i ∈ l → Inv t → Inv (step t i))
    (hpres : ∀ t i, i ∈ l → Inv t → Q t → Q (step t i))
    (i0 : ι) (hi0 : i0 ∈ l) (hhit : ∀ t, Inv t → Q (step t i0)) :
    Q (l.foldl step s) := by
  induction l generalizing s with
  | nil => simp at hi0
  | cons a l ih =>
    simp only [List.foldl_cons]
    rcases List.mem_cons.mp hi0 with h | h
    · subst h
      have hboth : Inv (l.foldl step (step s i0)) ∧ Q (l.foldl step (step s i0)) := by
        apply foldl_invariant (fun t => Inv t ∧ Q t)
        · exact ⟨hinv s i0 (List.mem_cons_self i0 l) h0, hhit s h0⟩
        · intro t i hi ht
          exact ⟨hinv t i (List.mem_cons_of_mem i0 hi) ht.1,
            hpres t i (List.mem_cons_of_mem i0 hi) ht.1 ht.2⟩
      exact hboth.2
    · apply ih
      · exact hinv s a (List.mem_cons_self a l) h0
      · intro t i hi ht
        exact hinv t i (List.mem_cons_of_mem a hi) ht
      · intro t i hi ht hq
        exact hpres t i (List.mem_cons_of_mem a hi) ht hq
      · exact h

theorem mem_pyrange (n g i : Nat) (hg : 0 < g) : i ∈ pyrange n g ↔ i % g = 0 ∧ i < n := by
  unfold pyrange
  rw [List.mem_range']
  constructor
  · rintro ⟨t, ht, rfl⟩
    refine ⟨by simp, ?_⟩
    have h1 : g * (t + 1) ≤ g * ((n + (g - 1)) / g) := Nat.mul_le_mul_left g ht
    have h2 : g * ((n + (g - 1)) / g) ≤ n + (g - 1) := Nat.mul_div_le _ _
    have h3 : g * (t + 1) = g * t + g := by ring
    omega
  · rintro ⟨hmod, hlt⟩
    refine ⟨i / g, ?_, ?_⟩
    · rw [Nat.div_lt_iff_lt_mul hg]
      have h1 : g * (i / g) = i := Nat.mul_div_cancel' (Nat.dvd_of_mod_eq_zero hmod)
      have h2 : n + (g - 1) < g * ((n + (g - 1)) / g) + g := by
        have := Nat.div_add_mod (n + (g - 1)) g
        have := Nat.mod_lt (n + (g - 1)) hg
        omega
      have h3 : (n + (g - 1)) / g * g = g * ((n + (g - 1)) / g) := Nat.mul_comm _ _
      by_contra hcon
      push_neg at hcon
      have h4 : g * ((n + (g - 1)) / g) ≤ g * (i / g) := by
        rw [h3] at hcon
        rw [h1]
        exact hcon
      have h5 : g * ((n + (g - 1)) / g) + g ≤ i + g := by omega
      omega
    · have h1 : g * (i / g) = i := Nat.mul_div_cancel' (Nat.dvd_of_mod_eq_zero hmod)
      omega

/-! ## Cells of columns -/

theorem cell_set (col : Column) (i j : Nat) (v : Option ℚ) :
    cell (col.set i v) j = if i = j ∧ i < col.length then v else cell col j := by
  unfold cell
  rw [List.getElem?_set]
  by_cases h : i = j
  · subst h
    by_cases h2 : i < col.length
    · simp [h2]
    · have : col[i]? = none := List.getElem?_eq_none (Nat.le_of_not_lt h2)
      simp [h2, this]
  · simp [h]

theorem cell_set_ne (col : Column) (i j : Nat) (v : Option ℚ) (h : i ≠ j) :
    cell (col.set i v) j = cell col j := by
  rw [cell_set]
  simp [h]

theorem cell_set_self (col : Column) (i : Nat) (v : Option ℚ) (h : i < col.length) :
    cell (col.set i v) i = v := by
  rw [cell_set]
  simp [h]

theorem cell_replicate_none (n j : Nat) : cell (List.replicate n none) j = none := by
  unfold cell
  rw [List.getElem?_replicate]
  split <;> rfl

/-! ## Group Segmenter: closed forms -/

theorem length_np_repeat {α : Type} (vals : List α) (g : Nat) :
    (np_repeat vals g).length = g * vals.length := by
  induction vals with
  | nil => simp [np_repeat]
  | cons v vs ih =>
    simp only [np_repeat, List.flatMap_cons, List.length_append, List.length_replicate,
      List.length_cons] at ih ⊢
    rw [ih]
    ring

theorem getElem?_np_repeat {α : Type} (vals : List α) (g : Nat) (hg : 0 < g) (i : Nat) :
    (np_repeat vals g)[i]? = vals[i / g]? := by
  induction vals generalizing i with
  | nil => simp [np_repeat]
  | cons v vs ih =>
    have hcons : np_repeat (v :: vs) g = List.replicate g v ++ np_repeat vs g := by
      simp [np_repeat]
    rw [hcons]
    by_cases h : i < g
    · rw [List.getElem?_append_left (by simpa using h), Nat.div_eq_of_lt h]
      simp [h]
    · have hge : g ≤ i := Nat.le_of_not_lt h
      rw [List.getElem?_append_right (by simpa using hge), List.length_replicate, ih]
      have hdiv : i / g = (i - g) / g + 1 := by
        have h1 : i = (i - g) + g := by omega
        conv_lhs => rw [h1]
        exact Nat.add_div_right (i - g) hg
      rw [hdiv]
      simp

theorem length_expand {α : Type} (vals : List α) (g : Nat) (hg : 0 < g) :
    (expand vals g).length = vals.length := by
  unfold expand
  rw [List.length_take, length_np_repeat]
  have : vals.length ≤ g * vals.length := Nat.le_mul_of_pos_left _ hg
  omega

theorem getElem?_expand {α : Type} (vals : List α) (g : Nat) (hg : 0 < g) (i : Nat)
    (hi : i < vals.length) : (expand vals g)[i]? = vals[i / g]? := by
  unfold expand
  rw [List.getElem?_take, if_pos hi, getElem?_np_repeat vals g hg]

theorem length_zipWith_expand {β : Type} (f : Row → β → Row) (h : Row → β) (l : Frame)
    (g : Nat) (hg : 0 < g) : (List.zipWith f l (expand (l.map h) g)).length = l.length := by
  rw [List.length_zipWith, length_expand _ g hg, List.length_map]
  simp

theorem getElem?_zipWith_expand {β : Type} (f : Row → β → Row) (h : Row → β) (l : Frame)
    (g : Nat) (hg : 0 < g) (i : Nat) (hi : i < l.length) :
    (List.zipWith f l (expand (l.map h) g))[i]? =
      l[i]?.bind (fun r => l[i / g]?.map (fun r' => f r (h r'))) := by
  rw [List.getElem?_zipWith', getElem?_expand _ g hg i (by simpa using hi), List.getElem?_map]
  cases l[i]? <;> cases l[i / g]? <;> rfl

theorem length_expand_columns (g : Nat) (hg : 0 < g) (df : Frame) :
    (expand_columns g df).length = df.length := by
  unfold expand_columns
  simp only [length_zipWith_expand _ _ _ g hg]

theorem exists_getElem?_of_lt {α : Type} (l : List α) (i : Nat) (hi : i < l.length) :
    ∃ a, l[i]? = some a := ⟨l[i], List.getElem?_eq_getElem hi⟩

/-- Row `i` of the expanded frame: the four block-level cells come from row `i / g`. -/
theorem getElem?_expand_columns (g : Nat) (hg : 0 < g) (df : Frame) (i : Nat)
    (hi : i < df.length) :
    (expand_columns g df)[i]? =
      df[i]?.bind (fun r => df[i / g]?.map (fun r' =>
        { r with axis := r'.axis, angle := r'.angle, b_stress := r'.b_stress, vdd := r'.vdd })) := by
  have hdiv : ∀ j, j < df.length → j / g < df.length :=
    fun j hj => lt_of_le_of_lt (Nat.div_le_self j g) hj
  unfold expand_columns
  dsimp only
  have H1 : ∀ j, j < df.length →
      (List.zipWith (fun r v => { r with axis := v }) df (expand (df.map Row.axis) g))[j]? =
        df[j]?.bind (fun r => df[j / g]?.map (fun r' => { r with axis := r'.axis })) :=
    fun j hj => getElem?_zipWith_expand _ _ df g hg j hj
  have L1 := length_zipWith_expand (fun r v => { r with axis := v }) Row.axis df g hg
  generalize List.zipWith (fun r v => { r with axis := v }) df (expand (df.map Row.axis) g)
    = df1 at H1 L1
  have H2 : ∀ j, j < df.length →
      (List.zipWith (fun r v => { r with angle := v }) df1 (expand (df1.map Row.angle) g))[j]? =
        df[j]?.bind (fun r => df[j / g]?.map (fun r' =>
          { r with axis := r'.axis, angle := r'.angle })) := by
    intro j hj
    rw [getElem?_zipWith_expand _ _ df1 g hg j (L1 ▸ hj), H1 j hj, H1 (j / g) (hdiv j hj)]
    obtain ⟨a, ha⟩ := exists_getElem?_of_lt df j hj
    obtain ⟨b, hb⟩ := exists_getElem?_of_lt df (j / g) (hdiv j hj)
    obtain ⟨c, hc⟩ := exists_getElem?_of_lt df (j / g / g) (hdiv _ (hdiv j hj))
    simp [ha, hb, hc]
  have L2 := length_zipWith_expand (fun r v => { r with angle := v }) Row.angle df1 g hg
  rw [L1] at L2
  generalize List.zipWith (fun r v => { r with angle := v }) df1 (expand (df1.map Row.angle) g)
    = df2 at H2 L2
  have H3 : ∀ j, j < df.length →
      (List.zipWith (fun r v => { r with b_stress := v }) df2
          (expand (df2.map Row.b_stress) g))[j]? =
        df[j]?.bind (fun r => df[j / g]?.map (fun r' =>
          { r with axis := r'.axis, angle := r'.angle, b_stress := r'.b_stress })) := by
    intro j hj
    rw [getElem?_zipWith_expand _ _ df2 g hg j (L2 ▸ hj), H2 j hj, H2 (j / g) (hdiv j hj)]
    obtain ⟨a, ha⟩ := exists_getElem?_of_lt df j hj
    obtain ⟨b, hb⟩ := exists_getElem?_of_lt df (j / g) (hdiv j hj)
    obtain ⟨c, hc⟩ := exists_getElem?_of_lt df (j / g / g) (hdiv _ (hdiv j hj))
    simp [ha, hb, hc]
  have L3 := length_zipWith_expand (fun r v => { r with b_stress := v }) Row.b_stress df2 g hg
  rw [L2] at L3
  generalize List.zipWith (fun r v => { r with b_stress := v }) df2
    (expand (df2.map Row.b_stress) g) = df3 at H3 L3
  rw [getElem?_zipWith_expand _ _ df3 g hg i (L3 ▸ hi), H3 i hi, H3 (i / g) (hdiv i hi)]
  obtain ⟨a, ha⟩ := exists_getElem?_of_lt df i hi
  obtain ⟨b, hb⟩ := exists_getElem?_of_lt df (i / g) (hdiv i hi)
  obtain ⟨c, hc⟩ := exists_getElem?_of_lt df (i / g / g) (hdiv _ (hdiv i hi))
  simp [ha, hb, hc]

theorem segment_ne_none (g : Nat) (hg : 0 < g) (df : Frame) (hne : df ≠ []) :
    ∃ out, segment g df = some out := by
  have hlen := length_expand_columns g hg df
  unfold segment fill_sample_no
  cases hE : expand_columns g df with
  | nil =>
    rw [hE] at hlen
    exact absurd (List.length_eq_zero.mp hlen.symm) hne
  | cons e0 es => exact ⟨_, rfl⟩

/-- Closed form of the segmented frame: block-level cells from row `i / g`, the
sample number filled from row `0` and blanked where the expanded axis is missing. -/
theorem segment_spec (g : Nat) (hg : 0 < g) (df out : Frame) (hseg : segment g df = some out) :
    out.length = df.length ∧
    ∀ i r h, df[i]? = some r → df[i / g]? = some h →
      out[i]? = some { r with
        sample_no := if h.axis.isNone then none else fillna (field df Row.sample_no 0) r.sample_no,
        axis := h.axis, angle := h.angle, b_stress := h.b_stress, vdd := h.vdd } := by
  have hlen := length_expand_columns g hg df
  unfold segment fill_sample_no at hseg
  cases hE : expand_columns g df with
  | nil => rw [hE] at hseg; simp at hseg
  | cons e0 es =>
    rw [hE] at hseg
    simp only [Option.some.injEq] at hseg
    have hpos : 0 < df.length := by
      rw [← hlen, hE]
      simp
    have h0 : e0.sample_no = field df Row.sample_no 0 := by
      have := getElem?_expand_columns g hg df 0 hpos
      rw [hE] at this
      obtain ⟨a, ha⟩ := exists_getElem?_of_lt df 0 hpos
      simp only [List.getElem?_cons_zero, Nat.zero_div, ha, Option.some_bind, Option.map_some',
        Option.some.injEq] at this
      rw [this]
      simp [field, ha]
    constructor
    · rw [← hseg, ← hlen, hE]
      simp
    · intro i r h hr hh
      have hi : i < df.length := (List.getElem?_eq_some.mp hr).1
      have := getElem?_expand_columns g hg df i hi
      rw [hE, hr, hh] at this
      simp only [Option.some_bind, Option.map_some'] at this
      rw [← hseg, List.getElem?_map, List.getElem?_map, this, h0]
      simp only [Option.map_some']
      cases h.axis <;> simp

/-- The measured columns are untouched by the Group Segmenter. -/
theorem segment_measured (g : Nat) (hg : 0 < g) (df out : Frame)
    (hseg : segment g df = some out) (i : Nat) :
    field out Row.b_set i = field df Row.b_set i ∧
    field out Row.vdiff_mean i = field df Row.vdiff_mean i ∧
    field out Row.b_read i = field df Row.b_read i := by
  obtain ⟨hlen, hrow⟩ := segment_spec g hg df out hseg
  by_cases hi : i < df.length
  · obtain ⟨r, hr⟩ := exists_getElem?_of_lt df i hi
    obtain ⟨h, hh⟩ := exists_getElem?_of_lt df (i / g)
      (lt_of_le_of_lt (Nat.div_le_self i g) hi)
    simp [field, hrow i r h hr hh, hr]
  · have h1 : df[i]? = none := List.getElem?_eq_none (Nat.le_of_not_lt hi)
    have h2 : out[i]? = none := List.getElem?_eq_none (by omega)
    simp [field, h1, h2]

theorem dropna_all_eq_self (sheet : Frame) (hfull : ∀ r ∈ sheet, r.all_missing = false) :
    dropna_all sheet = sheet := by
  unfold dropna_all
  apply List.filter_eq_self.mpr
  intro r hr
  simp [hfull r hr]

/-! ## Offset and sensitivity columns: closed forms -/

theorem off_du_cell (df : Frame) (j : Nat) :
    cell (off_du_column df) j =
      if j % 5 = 0 ∧ j + 4 < df.length then
        nan_avg (field df Row.vdiff_mean (j + 1)) (field df Row.vdiff_mean (j + 3))
      else none := by
  unfold off_du_column
  by_cases hj : j % 5 = 0 ∧ j + 4 < df.length
  · rw [if_pos hj]
    apply foldl_eventually (fun c : Column => c.length = df.length)
      (fun c : Column => cell c j =
        nan_avg (field df Row.vdiff_mean (j + 1)) (field df Row.vdiff_mean (j + 3)))
    · simp
    · intro t i _ ht
      split
      · rw [List.length_set]; exact ht
      · exact ht
    · intro t i _ _ hq
      split
      · by_cases hij : i = j
        · subst hij
          rw [cell_set]
          split <;> simp_all
        · rw [cell_set_ne _ _ _ _ hij]; exact hq
      · exact hq
    · exact (mem_pyrange df.length 5 j (by norm_num)).mpr ⟨hj.1, by omega⟩
    · intro t ht
      rw [if_pos hj.2, cell_set_self _ _ _ (by omega)]
  · rw [if_neg hj]
    apply foldl_invariant (fun c : Column => cell c j = none)
    · exact cell_replicate_none _ _
    · intro t i hi ht
      have hmod := ((mem_pyrange df.length 5 i (by norm_num)).mp hi).1
      split
      · next h4 =>
        have hij : i ≠ j := by
          intro e
          subst e
          exact hj ⟨hmod, h4⟩
        rw [cell_set_ne _ _ _ _ hij]; exact ht
      · exact ht

theorem block_fold_cell (col : Column) (i n : Nat) (s : Option ℚ) (hlen : col.length = n)
    (j : Nat) :
    ((List.range 5).foldl (fun c t => if i + t < n then c.set (i + t) s else c) col).length = n ∧
    cell ((List.range 5).foldl (fun c t => if i + t < n then c.set (i + t) s else c) col) j =
      if i ≤ j ∧ j < i + 5 ∧ j < n then s else cell col j := by
  constructor
  · apply foldl_invariant (fun c : Column => c.length = n)
    · exact hlen
    · intro t k _ ht
      split
      · rw [List.length_set]; exact ht
      · exact ht
  · by_cases hj : i ≤ j ∧ j < i + 5 ∧ j < n
    · rw [if_pos hj]
      apply foldl_eventually (fun c : Column => c.length = n) (fun c : Column => cell c j = s)
      · exact hlen
      · intro t k _ ht
        split
        · rw [List.length_set]; exact ht
        · exact ht
      · intro t k _ _ hq
        split
        · rw [cell_set]
          split
          · rfl
          · exact hq
        · exact hq
      · exact List.mem_range.mpr (show j - i < 5 by omega)
      · intro t ht
        have e : i + (j - i) = j := by omega
        rw [e, if_pos hj.2.2, cell_set_self _ _ _ (by omega)]
    · rw [if_neg hj]
      apply foldl_invariant (fun c : Column => cell c j = cell col j)
      · rfl
      · intro t k hk ht
        have hk5 : k < 5 := List.mem_range.mp hk
        split
        · next hlt =>
          have hne : i + k ≠ j := by
            intro e
            apply hj
            omega
          rw [cell_set_ne _ _ _ _ hne]; exact ht
        · exact ht

theorem sens_du_cell (df : Frame) (j : Nat) :
    cell (sens_du_column df) j =
      if 5 * (j / 5) + 4 < df.length then sens_du_block ((df.drop (5 * (j / 5))).take 5)
      else none := by
  unfold sens_du_column
  by_cases hj : 5 * (j / 5) + 4 < df.length
  · rw [if_pos hj]
    have hjn : j < df.length := by omega
    apply foldl_eventually (fun c : Column => c.length = df.length)
      (fun c : Column => cell c j = sens_du_block ((df.drop (5 * (j / 5))).take 5))
    · simp
    · intro t i _ ht
      split
      · exact (block_fold_cell t i df.length _ ht j).1
      · exact ht
    · intro t i hi ht hq
      have hmod := ((mem_pyrange df.length 5 i (by norm_num)).mp hi).1
      split
      · rw [(block_fold_cell t i df.length _ ht j).2]
        split
        · next hin =>
          have e : i = 5 * (j / 5) := by omega
          rw [e]
        · exact hq
      · exact hq
    · exact (mem_pyrange df.length 5 (5 * (j / 5)) (by norm_num)).mpr
        ⟨Nat.mul_mod_right 5 (j / 5), by omega⟩
    · intro t ht
      rw [if_pos hj]
      dsimp only
      rw [(block_fold_cell t _ df.length _ ht j).2, if_pos (by omega)]
  · rw [if_neg hj]
    refine (foldl_invariant (fun c : Column => c.length = df.length ∧ cell c j = none)
      _ _ _ ?_ ?_).2
    · exact ⟨by simp, cell_replicate_none _ _⟩
    · intro t i hi ht
      have hmod := ((mem_pyrange df.length 5 i (by norm_num)).mp hi).1
      split
      · next h4 =>
        refine ⟨(block_fold_cell t i df.length _ ht.1 j).1, ?_⟩
        rw [(block_fold_cell t i df.length _ ht.1 j).2, if_neg (by omega)]
        exact ht.2
      · exact ht

/-! ## Regression windows -/

theorem isnan_any_eq_false_iff (v : List (Option ℚ)) :
    isnan_any v = false ↔ ∀ c ∈ v, c ≠ none := by
  unfold isnan_any
  rw [Bool.eq_false_iff, Ne, List.any_eq_true]
  constructor
  · intro h c hc e
    exact h ⟨c, hc, by simp [e]⟩
  · rintro h ⟨c, hc, hn⟩
    exact h c hc (Option.isNone_iff_eq_none.mp hn)

theorem window_guard_iff (x y : List (Option ℚ)) :
    (!(isnan_any y || isnan_any x) && decide (len_set x > 1)) = true ↔
      spec_window_defined x y := by
  unfold spec_window_defined
  rw [← isnan_any_eq_false_iff x, ← isnan_any_eq_false_iff y,
    ← one_lt_dedup_length_iff x]
  unfold len_set
  cases isnan_any x <;> cases isnan_any y <;> simp

theorem window_slope_eq (x y : List (Option ℚ)) :
    window_slope x y =
      if spec_window_defined x y then some (polyfit_slope (values x) (values y)) else none := by
  unfold window_slope
  by_cases h : spec_window_defined x y
  · rw [if_pos h, if_pos ((window_guard_iff x y).mpr h)]
  · rw [if_neg h, if_neg (fun hc => h ((window_guard_iff x y).mp hc))]

theorem window3 (df : Frame) (f : Row → Option ℚ) (i : Nat) (hi : i + 2 < df.length) :
    ((df.drop i).take 3).map f = [field df f i, field df f (i + 1), field df f (i + 2)] := by
  obtain ⟨a, ha⟩ := exists_getElem?_of_lt df i (by omega)
  obtain ⟨b, hb⟩ := exists_getElem?_of_lt df (i + 1) (by omega)
  obtain ⟨c, hc⟩ := exists_getElem?_of_lt df (i + 2) (by omega)
  apply List.ext_getElem?
  intro k
  rw [List.getElem?_map, List.getElem?_take, List.getElem?_drop]
  rcases k with _ | _ | _ | k
  · simp [field, ha]
  · simp [field, hb]
  · simp [field, hc]
  · simp

theorem block_down_window (df : Frame) (f : Row → Option ℚ) (i : Nat) (hi : i + 4 < df.length) :
    (((df.drop i).take 5).take 3).map f =
      [field df f i, field df f (i + 1), field df f (i + 2)] := by
  rw [List.take_take, ← window3 df f i (by omega)]
  rfl

theorem block_up_window (df : Frame) (f : Row → Option ℚ) (i : Nat) (hi : i + 4 < df.length) :
    ((((df.drop i).take 5).drop 2).take 3).map f =
      [field df f (i + 2), field df f (i + 3), field df f (i + 4)] := by
  have h := window3 df f (i + 2) (by omega)
  rw [← List.drop_drop] at h
  have e : ((df.drop i).take 5).drop 2 = ((df.drop i).drop 2).take 3 := by
    rw [List.drop_take]
  rw [e, List.take_take]
  exact h

theorem head?_filterMap_range_eq_none {α : Type} (f : Nat → Option α) (n : Nat) :
    ((List.range n).filterMap f).head? = none ↔ ∀ j, j < n → f j = none := by
  rw [List.head?_eq_none_iff, List.filterMap_eq_nil_iff]
  constructor
  · intro h j hj
    exact h j (List.mem_range.mpr hj)
  · intro h j hj
    exact h j (List.mem_range.mp hj)

theorem head?_filterMap_range_eq_some {α : Type} (f : Nat → Option α) (n : Nat) (v : α) :
    ((List.range n).filterMap f).head? = some v ↔
      ∃ j, j < n ∧ f j = some v ∧ ∀ j', j' < j → f j' = none := by
  induction n with
  | zero => simp
  | succ n ih =>
    rw [List.range_succ, List.filterMap_append, List.head?_append]
    cases hh : ((List.range n).filterMap f).head? with
    | some w =>
      rw [hh] at ih
      simp only [Option.or_some]
      constructor
      · intro hw
        obtain ⟨j, hj, hfj, hbefore⟩ := ih.mp hw
        exact ⟨j, by omega, hfj, hbefore⟩
      · rintro ⟨j, hj, hfj, hbefore⟩
        by_cases hjn : j < n
        · exact ih.mpr ⟨j, hjn, hfj, hbefore⟩
        · have hjeq : j = n := by omega
          subst hjeq
          have := (head?_filterMap_range_eq_none f j).mpr hbefore
          rw [hh] at this
          exact Option.noConfusion this
    | none =>
      have hnone := (head?_filterMap_range_eq_none f n).mp hh
      simp only [Option.none_or]
      have hlast : ([n].filterMap f).head? = f n := by
        cases hfn : f n <;> simp [List.filterMap_cons, hfn]
      rw [hlast]
      constructor
      · intro hfn
        exact ⟨n, by omega, hfn, hnone⟩
      · rintro ⟨j, hj, hfj, _⟩
        by_cases hjn : j < n
        · rw [hnone j hjn] at hfj
          exact Option.noConfusion hfj
        · have hjeq : j = n := by omega
          subst hjeq
          exact hfj

theorem mem_group_indices (df : Frame) (k : ℚ × ℚ) (j : Nat) :
    j ∈ group_indices df k ↔ df[j]?.bind Row.key = some k := by
  unfold group_indices
  rw [List.mem_filter, List.mem_range, decide_eq_true_iff]
  constructor
  · exact fun h => h.2
  · intro h
    refine ⟨?_, h⟩
    by_contra hlt
    rw [List.getElem?_eq_none (Nat.le_of_not_lt hlt)] at h
    exact Option.noConfusion h

theorem mem_group_keys (df : Frame) (k : ℚ × ℚ) :
    k ∈ group_keys df ↔ ∃ j : Nat, df[j]?.bind Row.key = some k := by
  unfold group_keys
  rw [List.mem_insertionSort, List.mem_dedup, List.mem_filterMap]
  constructor
  · rintro ⟨r, hr, hk⟩
    obtain ⟨j, hj⟩ := List.getElem?_of_mem hr
    exact ⟨j, by rw [hj]; exact hk⟩
  · rintro ⟨j, hj⟩
    cases hr : df[j]? with
    | none => rw [hr] at hj; exact Option.noConfusion hj
    | some r =>
      rw [hr] at hj
      exact ⟨r, List.mem_iff_getElem?.mpr ⟨j, hr⟩, hj⟩

theorem resolve_ref_eq (df : Frame) (col : Column) (k : ℚ × ℚ) :
    resolve_ref df col (group_indices df k) =
      ((List.range df.length).filterMap (fun j =>
        if df[j]?.bind Row.key = some k ∧ field df Row.b_stress j = some 10 then cell col j
        else none)).head? := by
  unfold resolve_ref group_indices
  dsimp only
  rw [List.filterMap_filter, List.filterMap_filter]
  congr 1
  apply List.filterMap_congr
  intro j _
  by_cases h1 : df[j]?.bind Row.key = some k <;>
    by_cases h2 : field df Row.b_stress j = some 10 <;> simp [h1, h2]

/-- The reference of a group is its first defined value at stress 10, in row order. -/
theorem resolve_ref_eq_some (df : Frame) (col : Column) (k : ℚ × ℚ) (v : ℚ) :
    resolve_ref df col (group_indices df k) = some v ↔
      ∃ j : Nat, df[j]?.bind Row.key = some k ∧ field df Row.b_stress j = some 10 ∧
        cell col j = some v ∧
        ∀ j', j' < j → df[j']?.bind Row.key = some k → field df Row.b_stress j' = some 10 →
          cell col j' = none := by
  rw [resolve_ref_eq, head?_filterMap_range_eq_some]
  constructor
  · rintro ⟨j, _, hfj, hbefore⟩
    split at hfj
    · next hc =>
      refine ⟨j, hc.1, hc.2, hfj, ?_⟩
      intro j' hj' hk hs
      have := hbefore j' hj'
      rw [if_pos ⟨hk, hs⟩] at this
      exact this
    · exact Option.noConfusion hfj
  · rintro ⟨j, hk, hs, hv, hbefore⟩
    have hj : j < df.length := by
      by_contra hlt
      rw [List.getElem?_eq_none (Nat.le_of_not_lt hlt)] at hk
      exact Option.noConfusion hk
    refine ⟨j, hj, by rw [if_pos ⟨hk, hs⟩]; exact hv, ?_⟩
    intro j' hj'
    split
    · next hc => exact hbefore j' hj' hc.1 hc.2
    · rfl

/-- A group has no reference exactly when none of its rows at stress 10 has a value. -/
theorem resolve_ref_eq_none (df : Frame) (col : Column) (k : ℚ × ℚ) :
    resolve_ref df col (group_indices df k) = none ↔
      ∀ j : Nat, df[j]?.bind Row.key = some k → field df Row.b_stress j = some 10 →
        cell col j = none := by
  rw [resolve_ref_eq, head?_filterMap_range_eq_none]
  constructor
  · intro h j hk hs
    have hj : j < df.length := by
      by_contra hlt
      rw [List.getElem?_eq_none (Nat.le_of_not_lt hlt)] at hk
      exact Option.noConfusion hk
    have := h j hj
    rw [if_pos ⟨hk, hs⟩] at this
    exact this
  · intro h j _
    split
    · next hc => exact h j hc.1 hc.2
    · rfl

/-! ## Drift columns: closed forms -/

theorem sens_drift_group_cell (df : Frame) (sens : Column) (d : Column) (k : ℚ × ℚ)
    (j : Nat) :
    (sens_drift_group df sens d k).length = d.length ∧
    cell (sens_drift_group df sens d k) j =
      if df[j]?.bind Row.key = some k ∧ j < d.length ∧ (spec_sens_drift df sens j).isSome then
        spec_sens_drift df sens j
      else cell d j := by
  have hlen : ∀ l : List Nat, (l.foldl
      (fun d idx =>
        match resolve_ref df sens (group_indices df k), cell sens idx with
        | some r, some s => if r ≠ 0 then d.set idx (some ((s - r) / r * 100)) else d
        | _, _ => d) d).length = d.length := by
    intro l
    apply foldl_invariant (fun c : Column => c.length = d.length)
    · rfl
    · intro t idx _ ht
      split
      · split
        · rw [List.length_set]; exact ht
        · exact ht
      · exact ht
  refine ⟨hlen _, ?_⟩
  unfold sens_drift_group
  dsimp only
  have htarget : ∀ idx, df[idx]?.bind Row.key = some k →
      spec_sens_drift df sens idx =
        match resolve_ref df sens (group_indices df k), cell sens idx with
        | some r, some s => if r ≠ 0 then some ((s - r) / r * 100) else none
        | _, _ => none := by
    intro idx hk
    unfold spec_sens_drift
    rw [hk]
  by_cases hc : df[j]?.bind Row.key = some k ∧ j < d.length ∧ (spec_sens_drift df sens j).isSome
  · rw [if_pos hc]
    obtain ⟨hk, hjd, hsome⟩ := hc
    have htj := htarget j hk
    apply foldl_eventually (fun c : Column => c.length = d.length)
      (fun c : Column => cell c j = spec_sens_drift df sens j)
    · rfl
    · intro t idx _ ht
      split
      · split
        · rw [List.length_set]; exact ht
        · exact ht
      · exact ht
    · intro t idx hidx ht hq
      have hkidx := (mem_group_indices df k idx).mp hidx
      split
      · next r s hr hs =>
        split
        · next hr0 =>
          by_cases hij : idx = j
          · subst hij
            rw [cell_set]
            split
            · rw [htj, hr, hs]
              simp [hr0]
            · exact hq
          · rw [cell_set_ne _ _ _ _ hij]; exact hq
        · exact hq
      · exact hq
    · exact (mem_group_indices df k j).mpr hk
    · intro t ht
      obtain ⟨r, s, hr, hs, hr0, hval⟩ : ∃ r s, resolve_ref df sens (group_indices df k) = some r ∧
          cell sens j = some s ∧ r ≠ 0 ∧
          spec_sens_drift df sens j = some ((s - r) / r * 100) := by
        rw [htj] at hsome ⊢
        cases hr : resolve_ref df sens (group_indices df k) with
        | none => rw [hr] at hsome; simp at hsome
        | some r =>
          cases hs : cell sens j with
          | none => rw [hr, hs] at hsome; simp at hsome
          | some s =>
            by_cases hr0 : r = 0
            · rw [hr, hs] at hsome; simp [hr0] at hsome
            · exact ⟨r, s, rfl, rfl, hr0, by simp [hr0]⟩
      rw [hr, hs, hval]
      simp only [hr0, ne_eq, not_false_eq_true, if_true]
      rw [cell_set_self _ _ _ (by omega)]
  · rw [if_neg hc]
    refine (foldl_invariant (fun c : Column => c.length = d.length ∧ cell c j = cell d j)
      _ _ _ ⟨rfl, rfl⟩ ?_).2
    intro t idx hidx ht
    have hkidx := (mem_group_indices df k idx).mp hidx
    split
    · next r s hr hs =>
      split
      · next hr0 =>
        refine ⟨by rw [List.length_set]; exact ht.1, ?_⟩
        rw [cell_set]
        split
        · next hij =>
          exfalso
          obtain ⟨e, hlt⟩ := hij
          subst e
          apply hc
          refine ⟨hkidx, by omega, ?_⟩
          rw [htarget idx hkidx, hr, hs]
          simp [hr0]
        · exact ht.2
      · exact ht
    · exact ht

/-- Closed form of the `Sens_drift_DU[%]` column. -/
theorem sens_drift_cell (df : Frame) (sens : Column) (j : Nat) :
    cell (sens_drift_column df sens) j = spec_sens_drift df sens j := by
  unfold sens_drift_column
  have hlen : ∀ l : List (ℚ × ℚ),
      (l.foldl (sens_drift_group df sens) (List.replicate df.length none)).length
        = df.length := by
    intro l
    apply foldl_invariant (fun c : Column => c.length = df.length)
    · simp
    · intro t k _ ht
      rw [(sens_drift_group_cell df sens t k j).1]; exact ht
  cases htj : spec_sens_drift df sens j with
  | none =>
    apply foldl_invariant (fun c : Column => cell c j = none)
    · exact cell_replicate_none _ _
    · intro t k _ ht
      rw [(sens_drift_group_cell df sens t k j).2, htj]
      split
      · rfl
      · exact ht
  | some v =>
    have hkey : ∃ k, df[j]?.bind Row.key = some k := by
      unfold spec_sens_drift at htj
      split at htj
      · exact Option.noConfusion htj
      · next k hk => exact ⟨k, hk⟩
    obtain ⟨k, hk⟩ := hkey
    have hj : j < df.length := by
      by_contra hlt
      rw [List.getElem?_eq_none (Nat.le_of_not_lt hlt)] at hk
      exact Option.noConfusion hk
    apply foldl_eventually (fun c : Column => c.length = df.length)
      (fun c : Column => cell c j = some v)
    · simp
    · intro t k' _ ht
      rw [(sens_drift_group_cell df sens t k' j).1]; exact ht
    · intro t k' _ _ hq
      rw [(sens_drift_group_cell df sens t k' j).2, htj]
      split
      · rfl
      · exact hq
    · exact (mem_group_keys df k).mpr ⟨j, hk⟩
    · intro t ht
      rw [(sens_drift_group_cell df sens t k j).2, htj, if_pos ⟨hk, by omega, rfl⟩]

theorem spec_off_drift_of_key (df : Frame) (off : Column) (k : ℚ × ℚ) (j : Nat)
    (hk : df[j]?.bind Row.key = some k) :
    spec_off_drift df off j =
      match resolve_ref df off (group_indices df k), cell off j with
      | some r, some o => some (o - r)
      | _, _ => none := by
  unfold spec_off_drift
  rw [hk]

theorem getD_mem_group_indices (df : Frame) (k : ℚ × ℚ) (i : Nat)
    (hi : i < (group_indices df k).length) :
    df[(group_indices df k).getD i 0]?.bind Row.key = some k := by
  rw [List.getD_eq_getElem _ _ hi]
  exact (mem_group_indices df k _).mp (List.getElem_mem hi)

theorem off_drift_group_cell (df : Frame) (off : Column) (d : Column) (k : ℚ × ℚ) (j : Nat) :
    (off_drift_group df off d k).length = d.length ∧
    (cell (off_drift_group df off d k) j = cell d j ∨
      cell (off_drift_group df off d k) j = spec_off_drift df off j) ∧
    (cell d j = spec_off_drift df off j →
      cell (off_drift_group df off d k) j = spec_off_drift df off j) ∧
    (rank_aligned df k j → j < d.length →
      cell (off_drift_group df off d k) j = spec_off_drift df off j ∨
      (spec_off_drift df off j = none ∧ cell (off_drift_group df off d k) j = cell d j)) := by
  unfold off_drift_group
  dsimp only
  have hstep : ∀ (t : Column) (i : Nat),
      (if i < (group_indices df k).length then
          match resolve_ref df off (group_indices df k),
            cell off ((group_indices df k).getD i 0) with
          | some r, some o => t.set ((group_indices df k).getD i 0) (some (o - r))
          | _, _ => t
        else t).length = t.length ∧
      (cell (if i < (group_indices df k).length then
          match resolve_ref df off (group_indices df k),
            cell off ((group_indices df k).getD i 0) with
          | some r, some o => t.set ((group_indices df k).getD i 0) (some (o - r))
          | _, _ => t
        else t) j = cell t j ∨
       cell (if i < (group_indices df k).length then
          match resolve_ref df off (group_indices df k),
            cell off ((group_indices df k).getD i 0) with
          | some r, some o => t.set ((group_indices df k).getD i 0) (some (o - r))
          | _, _ => t
        else t) j = spec_off_drift df off j) ∧
      (i < (group_indices df k).length → (group_indices df k).getD i 0 = j → j < t.length →
        cell (if i < (group_indices df k).length then
          match resolve_ref df off (group_indices df k),
            cell off ((group_indices df k).getD i 0) with
          | some r, some o => t.set ((group_indices df k).getD i 0) (some (o - r))
          | _, _ => t
        else t) j = spec_off_drift df off j ∨
        (spec_off_drift df off j = none ∧ True)) := by
    intro t i
    by_cases hi : i < (group_indices df k).length
    · rw [if_pos hi]
      have hkidx := getD_mem_group_indices df k i hi
      have htgt := spec_off_drift_of_key df off k _ hkidx
      cases hr : resolve_ref df off (group_indices df k) with
      | none =>
        rw [hr] at htgt
        refine ⟨rfl, Or.inl rfl, ?_⟩
        intro _ e _
        rw [e] at htgt
        exact Or.inr ⟨htgt, trivial⟩
      | some r =>
        cases ho : cell off ((group_indices df k).getD i 0) with
        | none =>
          rw [hr, ho] at htgt
          refine ⟨rfl, Or.inl rfl, ?_⟩
          intro _ e _
          rw [e] at htgt
          exact Or.inr ⟨htgt, trivial⟩
        | some o =>
          rw [hr, ho] at htgt
          dsimp only at htgt ⊢
          refine ⟨List.length_set _ _ _, ?_, ?_⟩
          · rw [cell_set]
            split
            · next h =>
              rw [← h.1, htgt]
              exact Or.inr rfl
            · exact Or.inl rfl
          · intro _ e hjt
            left
            rw [cell_set, if_pos ⟨e, by rw [e]; exact hjt⟩, ← e, htgt]
    · rw [if_neg hi]
      exact ⟨rfl, Or.inl rfl, fun h => absurd h hi⟩
  have hlen : ∀ l : List Nat, (l.foldl
      (fun t i =>
        if i < (group_indices df k).length then
          match resolve_ref df off (group_indices df k),
            cell off ((group_indices df k).getD i 0) with
          | some r, some o => t.set ((group_indices df k).getD i 0) (some (o - r))
          | _, _ => t
        else t) d).length = d.length := by
    intro l
    apply foldl_invariant (fun c : Column => c.length = d.length)
    · rfl
    · intro t i _ ht
      rw [(hstep t i).1]; exact ht
  refine ⟨hlen _, ?_, ?_, ?_⟩
  · apply foldl_invariant
      (fun c : Column => cell c j = cell d j ∨ cell c j = spec_off_drift df off j)
    · exact Or.inl rfl
    · intro t i _ ht
      rcases (hstep t i).2.1 with h | h
      · rw [h]; exact ht
      · exact Or.inr h
  · intro hq
    apply foldl_invariant (fun c : Column => cell c j = spec_off_drift df off j)
    · exact hq
    · intro t i _ ht
      rcases (hstep t i).2.1 with h | h
      · rw [h]; exact ht
      · exact h
  · rintro ⟨i, hmod, hi, hget⟩ hjd
    cases htj : spec_off_drift df off j with
    | none =>
      have hsound := foldl_invariant
        (fun c : Column => cell c j = cell d j ∨ cell c j = spec_off_drift df off j)
        (fun t i =>
          if i < (group_indices df k).length then
            match resolve_ref df off (group_indices df k),
              cell off ((group_indices df k).getD i 0) with
            | some r, some o => t.set ((group_indices df k).getD i 0) (some (o - r))
            | _, _ => t
          else t)
        (pyrange (group_indices df k).length 5) d (Or.inl rfl)
        (by
          intro t i _ ht
          rcases (hstep t i).2.1 with h | h
          · rw [h]; exact ht
          · exact Or.inr h)
      rcases hsound with h | h
      · exact Or.inr ⟨rfl, h⟩
      · left
        rw [h, htj]
    | some v =>
      left
      apply foldl_eventually (fun c : Column => c.length = d.length)
        (fun c : Column => cell c j = some v)
      · rfl
      · intro t i' _ ht
        rw [(hstep t i').1]; exact ht
      · intro t i' _ _ hq
        rcases (hstep t i').2.1 with h | h
        · rw [h]; exact hq
        · rw [h, htj]
      · exact (mem_pyrange _ 5 i (by norm_num)).mpr ⟨hmod, hi⟩
      · intro t ht
        rcases (hstep t i).2.2 hi hget (by omega) with h | h
        · rw [h, htj]
        · rw [htj] at h
          exact Option.noConfusion h.1

/-- Every cell of the `Off_drift_DU[mV]` column is missing or the spec's drift. -/
theorem off_drift_cell_sound (df : Frame) (off : Column) (j : Nat) :
    cell (off_drift_column df off) j = none ∨
      cell (off_drift_column df off) j = spec_off_drift df off j := by
  unfold off_drift_column
  apply foldl_invariant
    (fun c : Column => cell c j = none ∨ cell c j = spec_off_drift df off j)
  · exact Or.inl (cell_replicate_none _ _)
  · intro t k _ ht
    rcases (off_drift_group_cell df off t k j).2.1 with h | h
    · rw [h]; exact ht
    · exact Or.inr h

/-- A row at a position that is a multiple of 5 within its group gets the spec's drift. -/
theorem off_drift_cell_aligned (df : Frame) (off : Column) (k : ℚ × ℚ) (j : Nat)
    (hk : df[j]?.bind Row.key = some k) (hrank : rank_aligned df k j) :
    cell (off_drift_column df off) j = spec_off_drift df off j := by
  have hj : j < df.length := by
    by_contra hlt
    rw [List.getElem?_eq_none (Nat.le_of_not_lt hlt)] at hk
    exact Option.noConfusion hk
  cases htj : spec_off_drift df off j with
  | none =>
    rcases off_drift_cell_sound df off j with h | h
    · exact h
    · rw [h, htj]
  | some v =>
    unfold off_drift_column
    apply foldl_eventually (fun c : Column => c.length = df.length)
      (fun c : Column => cell c j = some v)
    · simp
    · intro t k' _ ht
      rw [(off_drift_group_cell df off t k' j).1]; exact ht
    · intro t k' _ _ hq
      rw [← htj] at hq ⊢
      exact (off_drift_group_cell df off t k' j).2.2.1 hq
    · exact (mem_group_keys df k).mpr ⟨j, hk⟩
    · intro t ht
      rcases (off_drift_group_cell df off t k j).2.2.2 hrank (by omega) with h | h
      · rw [h, htj]
      · rw [htj] at h
        exact Option.noConfusion h.1

/-! ## Whole blocks inside a group -/

theorem filter_block_length (p : Nat → Bool) (b : Nat)
    (hp : ∀ t, t < 5 → p (5 * b + t) = p (5 * b)) :
    (((List.range 5).map (fun t => 5 * b + t)).filter p).length % 5 = 0 := by
  have h0 := hp 0 (by norm_num)
  have h1 := hp 1 (by norm_num)
  have h2 := hp 2 (by norm_num)
  have h3 := hp 3 (by norm_num)
  have h4 := hp 4 (by norm_num)
  have hr : List.range 5 = [0, 1, 2, 3, 4] := by decide
  rw [hr]
  cases hpb : p (5 * b) <;> simp [List.filter, h0, h1, h2, h3, h4, hpb]

theorem filter_blocks_length (p : Nat → Bool) (b : Nat)
    (hp : ∀ b' t, b' < b → t < 5 → p (5 * b' + t) = p (5 * b')) :
    ((List.range (5 * b)).filter p).length % 5 = 0 := by
  induction b with
  | zero => simp
  | succ b ih =>
    have e : 5 * (b + 1) = 5 * b + 5 := by ring
    rw [e, List.range_add, List.filter_append, List.length_append]
    have h1 := ih (fun b' t hb' ht => hp b' t (by omega) ht)
    have h2 := filter_block_length p b (fun t ht => hp b t (by omega) ht)
    have e2 : (List.range 5).map (fun t => 5 * b + t) = (List.range 5).map (5 * b + ·) := rfl
    rw [e2] at h2
    omega

theorem group_indices_split (df : Frame) (k : ℚ × ℚ) (j : Nat)
    (hk : df[j]?.bind Row.key = some k) :
    ∃ rest, group_indices df k =
      (List.range j).filter (fun j' => decide (df[j']?.bind Row.key = some k)) ++ j :: rest := by
  have hj : j < df.length := by
    by_contra hlt
    rw [List.getElem?_eq_none (Nat.le_of_not_lt hlt)] at hk
    exact Option.noConfusion hk
  unfold group_indices
  obtain ⟨m, hm⟩ : ∃ m, df.length = j + (m + 1) := ⟨df.length - j - 1, by omega⟩
  rw [hm, List.range_add, List.filter_append, List.range_succ_eq_map, List.map_cons,
    List.filter_cons]
  simp only [Nat.add_zero, hk, decide_True, if_true]
  exact ⟨_, rfl⟩

/-- When every complete block carries one (sample, axis) key on its five rows, the
first row of a complete block sits at a multiple of 5 within its group. -/
theorem rank_aligned_of_blocks (df : Frame)
    (hhom : ∀ b t, 5 * b + 4 < df.length → t < 5 →
      df[5 * b + t]?.bind Row.key = df[5 * b]?.bind Row.key)
    (b : Nat) (k : ℚ × ℚ) (hb : 5 * b + 4 < df.length)
    (hk : df[5 * b]?.bind Row.key = some k) :
    rank_aligned df k (5 * b) := by
  obtain ⟨rest, hsplit⟩ := group_indices_split df k (5 * b) hk
  refine ⟨((List.range (5 * b)).filter
    (fun j' => decide (df[j']?.bind Row.key = some k))).length, ?_, ?_, ?_⟩
  · apply filter_blocks_length
    intro b' t hb' ht
    have := hhom b' t (by omega) ht
    simp only [this]
  · rw [hsplit, List.length_append, List.length_cons]
    omega
  · rw [hsplit, List.getD_eq_getElem?_getD, List.getElem?_append_right (le_refl _)]
    simp

/-! ## Summary scans -/

theorem two_sided_iff_abs (d t : ℚ) : (d < -t ∨ d > t) ↔ |d| > t := by
  simp only [gt_iff_lt, lt_abs]
  constructor
  · rintro (h | h)
    · right; linarith
    · left; exact h
  · rintro (h | h)
    · right; exact h
    · left; linarith

theorem filterMap_eq_filter_map {α β : Type} (l : List α) (f : α → Option β) (p : α → Bool)
    (g : α → β) (h : ∀ a, f a = if p a then some (g a) else none) :
    l.filterMap f = (l.filter p).map g := by
  induction l with
  | nil => rfl
  | cons a l ih =>
    rw [List.filterMap_cons, List.filter_cons, h a]
    cases hp : p a
    · simpa using ih
    · simp [ih]

theorem summary_vdiff_eq (t : List VdiffRecord) :
    summary_vdiff t =
      (t.filter (fun row => decide (spec_offset_flagged row))).map offset_entry := by
  unfold summary_vdiff
  dsimp only
  rw [List.filterMap_filter]
  apply filterMap_eq_filter_map
  intro row
  rcases row with ⟨sn, ang, pl, stress, vdd, br, bs, tmp, vmax, vmin, vmean, vstd, off, drift⟩
  unfold spec_offset_flagged offset_entry
  cases stress with
  | none => simp
  | some st =>
    cases drift with
    | none => simp
    | some dv =>
      have habs := two_sided_iff_abs dv 2.5
      simp only [habs]
      by_cases h47 : bs = some 47 <;> by_cases h120 : st < 120 <;>
        by_cases hflag : |dv| > 2.5 <;> simp [h47, h120, hflag]

theorem summary_sens_eq (t : List SensRecord) :
    summary_sens t =
      (t.filter (fun row => decide (spec_sens_flagged row))).map sens_entry := by
  unfold summary_sens
  apply filterMap_eq_filter_map
  intro row
  rcases row with ⟨sn, ang, pl, stress, vdd, br, bs, tmp, vmax, vmin, vmean, vstd, sens, drift⟩
  unfold spec_sens_flagged sens_entry
  cases stress with
  | none => simp
  | some st =>
    cases drift with
    | none => simp
    | some dv =>
      have habs := two_sided_iff_abs dv 3
      simp only [habs]
      by_cases h120 : st < 120 <;> by_cases hflag : |dv| > 3 <;> simp [h120, hflag]

/-! ## Block-wise columns in general -/

theorem spec_window_congr (df sheet : Frame) (f : Row → Option ℚ)
    (h : ∀ i, field df f i = field sheet f i) (i : Nat) :
    spec_window df f i = spec_window sheet f i := by
  unfold spec_window
  rw [h, h, h]

/-! ## Block filtering -/

theorem map_cell_str (m : CodeMapping) (label : String) :
    map_cell m (Cell.str label) = Cell.str label := rfl

theorem map_cell_idem (m : CodeMapping) (value : Cell) :
    map_cell m (map_cell m value) = map_cell m value := by
  unfold map_cell
  cases h : mapping_get m value with
  | none => simp only [h]
  | some label => rfl

theorem process_sheet_updown_eq_none_iff (sheet : Sheet) :
    process_sheet_updown sheet = none ↔ ¬ spec_well_formed sheet := by
  unfold process_sheet_updown spec_well_formed
  cases sheet.table with
  | none => simp
  | some rows =>
    dsimp only
    by_cases h : dropna_all rows = []
    · rw [h]
      have : segment 5 ([] : Frame) = none := rfl
      rw [this]
      simp
    · obtain ⟨df, hdf⟩ := segment_ne_none 5 (by norm_num) (dropna_all rows) h
      rw [hdf]
      simp [h]

theorem process_sheet_updown_isSome (sheet : Sheet) (h : spec_well_formed sheet) :
    ∃ t, process_sheet_updown sheet = some t := by
  cases hp : process_sheet_updown sheet with
  | none => exact absurd h ((process_sheet_updown_eq_none_iff sheet).mp hp)
  | some t => exact ⟨t, rfl⟩

theorem sheet_loop_updown_none (sheets : List Sheet)
    (all : List VdiffRecord × List SensRecord)
    (h : ∃ sh ∈ sheets.filter (fun sheet => !is_precon sheet.name),
      process_sheet_updown sh = none) :
    sheet_loop_updown sheets all = none := by
  induction sheets generalizing all with
  | nil =>
    obtain ⟨sh, hsh, _⟩ := h
    simp at hsh
  | cons sheet rest ih =>
    obtain ⟨sh, hsh, hnone⟩ := h
    rw [sheet_loop_updown]
    by_cases hp : is_precon sheet.name = true
    · rw [if_pos hp]
      apply ih
      rw [List.filter_cons_of_neg (by simp [hp])] at hsh
      exact ⟨sh, hsh, hnone⟩
    · rw [if_neg hp]
      rw [List.filter_cons_of_pos (by simpa using hp)] at hsh
      cases hps : process_sheet_updown sheet with
      | none => rfl
      | some t =>
        dsimp only
        apply ih
        rcases List.mem_cons.mp hsh with e | hmem
        · subst e
          rw [hps] at hnone
          exact Option.noConfusion hnone
        · exact ⟨sh, hmem, hnone⟩

theorem sheet_loop_updown_some (sheets : List Sheet)
    (all : List VdiffRecord × List SensRecord)
    (h : ∀ sh ∈ sheets.filter (fun sheet => !is_precon sheet.name),
      ∃ t, process_sheet_updown sh = some t) :
    ∃ ts : List (List VdiffRecord × List SensRecord),
      (sheets.filter (fun sheet => !is_precon sheet.name)).map process_sheet_updown =
        ts.map some ∧
      sheet_loop_updown sheets all =
        some (all.1 ++ (ts.map Prod.fst).flatten, all.2 ++ (ts.map Prod.snd).flatten) := by
  induction sheets generalizing all with
  | nil => exact ⟨[], rfl, by simp [sheet_loop_updown]⟩
  | cons sheet rest ih =>
    rw [sheet_loop_updown]
    by_cases hp : is_precon sheet.name = true
    · rw [if_pos hp, List.filter_cons_of_neg (by simp [hp])]
      rw [List.filter_cons_of_neg (by simp [hp])] at h
      exact ih all h
    · rw [if_neg hp, List.filter_cons_of_pos (by simpa using hp)]
      rw [List.filter_cons_of_pos (by simpa using hp)] at h
      obtain ⟨t, ht⟩ := h sheet (List.mem_cons_self _ _)
      obtain ⟨ts, hts, hloop⟩ := ih (all.1 ++ t.1, all.2 ++ t.2)
        (fun sh hsh => h sh (List.mem_cons_of_mem _ hsh))
      refine ⟨t :: ts, ?_, ?_⟩
      · rw [List.map_cons, List.map_cons, ht, hts]
      · rw [ht]
        dsimp only
        rw [hloop]
        simp [List.append_assoc]

theorem sheet_loop_updown_isSome_iff (sheets : List Sheet)
    (all : List VdiffRecord × List SensRecord) :
    (sheet_loop_updown sheets all).isSome ↔
      ∀ sh ∈ sheets.filter (fun sheet => !is_precon sheet.name), spec_well_formed sh := by
  constructor
  · intro h sh hsh
    by_contra hbad
    have hnone := sheet_loop_updown_none sheets all
      ⟨sh, hsh, (process_sheet_updown_eq_none_iff sh).mpr hbad⟩
    rw [hnone] at h
    exact Bool.noConfusion h
  · intro h
    obtain ⟨ts, _, hloop⟩ := sheet_loop_updown_some sheets all
      (fun sh hsh => process_sheet_updown_isSome sh (h sh hsh))
    rw [hloop]
    rfl

theorem updown_sensitivity_table_not_empty (df : Frame) (r : SensRecord)
    (hr : r ∈ updown_sensitivity_table df) : r.all_empty = false := by
  unfold updown_sensitivity_table at hr
  obtain ⟨i, hi, hri⟩ := List.mem_filterMap.mp hr
  unfold filtered_indices at hi
  have hsome := (List.mem_filter.mp hi).2
  rw [Bool.and_eq_true] at hsome
  cases hrow : df[i]? with
  | none => rw [hrow] at hri; exact Option.noConfusion hri
  | some row =>
    rw [hrow] at hri
    simp only [Option.map_some', Option.some.injEq] at hri
    rw [← hri]
    cases hc : cell (sens_du_column df) i with
    | none => rw [hc] at hsome; exact absurd hsome.2 (by simp)
    | some v => simp [SensRecord.all_empty, sens_record]

theorem process_sheet_updown_sens_not_empty (sheet : Sheet)
    (t : List VdiffRecord × List SensRecord) (ht : process_sheet_updown sheet = some t)
    (r : SensRecord) (hr : r ∈ t.2) : r.all_empty = false := by
  unfold process_sheet_updown at ht
  cases htab : sheet.table with
  | none => rw [htab] at ht; exact Option.noConfusion ht
  | some rows =>
    rw [htab] at ht
    dsimp only at ht
    cases hseg : segment 5 (dropna_all rows) with
    | none => rw [hseg] at ht; exact Option.noConfusion ht
    | some df =>
      rw [hseg] at ht
      simp only [Option.some.injEq] at ht
      rw [← ht] at hr
      exact updown_sensitivity_table_not_empty df r hr

/-- The tables of a completed run: the concatenation over the processed sheets, the
rows that are empty in every column removed from `Vdiff_data`. -/
theorem process_excel_file_updown_eq (workbook : List Sheet)
    (out : List VdiffRecord × List SensRecord)
    (hrun : process_excel_file_updown workbook = some out) :
    ∃ ts : List (List VdiffRecord × List SensRecord),
      (spec_selected workbook).map process_sheet_updown = ts.map some ∧
      out.1 = ((ts.map Prod.fst).flatten).filter (fun r => !r.all_empty) ∧
      out.2 = (ts.map Prod.snd).flatten := by
  unfold process_excel_file_updown at hrun
  have hsome : (sheet_loop_updown (workbook.drop 2) ([], [])).isSome := by
    cases h : sheet_loop_updown (workbook.drop 2) ([], []) with
    | none => rw [h] at hrun; exact Option.noConfusion hrun
    | some _ => rfl
  have hwf := (sheet_loop_updown_isSome_iff _ _).mp hsome
  obtain ⟨ts, hts, hloop⟩ := sheet_loop_updown_some (workbook.drop 2) ([], [])
    (fun sh hsh => process_sheet_updown_isSome sh (hwf sh hsh))
  rw [hloop] at hrun
  simp only [Option.map_some', Option.some.injEq, List.nil_append] at hrun
  refine ⟨ts, hts, ?_, ?_⟩
  · rw [← hrun]
  · rw [← hrun]
    apply List.filter_eq_self.mpr
    intro r hr
    obtain ⟨l, hl, hrl⟩ := List.mem_flatten.mp hr
    obtain ⟨t, ht, rfl⟩ := List.mem_map.mp hl
    have hmem : some t ∈ ts.map some := List.mem_map.mpr ⟨t, ht, rfl⟩
    rw [← hts] at hmem
    obtain ⟨sh, _, hsh⟩ := List.mem_map.mp hmem
    rw [process_sheet_updown_sens_not_empty sh t hsh r hrl]
    rfl

/-! ## Two runs that differ outside the reference blocks -/

/-- C1. Slope Fitter on exactly linear data: for equal-length windows `x`, `y`
without missing values, with two distinct `x` values and `y_i = a*x_i + b`, the
least-squares slope is `a`, and the guarded fit of the program returns it; the
fixture `x=[0,5,10]`, `y=[0,10,20]` gives exactly 2. -/
theorem slope_fit_linear (xs ys : List ℚ) (a b : ℚ)
    (hlen : xs.length = ys.length)
    (hlin : ∀ i (hx : i < xs.length) (hy : i < ys.length), ys[i] = a * xs[i] + b)
    (hd : ∃ u ∈ xs, ∃ v ∈ xs, u ≠ v) :
    polyfit_slope xs ys = a ∧
    window_slope (xs.map some) (ys.map some) = some a ∧
    window_slope [some 0, some 5, some 10] [some 0, some 10, some 20] = some 2 := by
  have hys : ys = xs.map (fun x => a * x + b) := by
    apply List.ext_getElem
    · simp [hlen]
    · intro i h1 h2
      rw [List.getElem_map]
      exact hlin i (by simpa using h2) h1
  subst hys
  have hfit := polyfit_slope_affine a b xs hd
  refine ⟨hfit, ?_, ?_⟩
  · have hcard : 1 < len_set (xs.map some) := by
      rw [len_set_map_some]
      exact (one_lt_dedup_length_iff xs).mpr hd
    unfold window_slope
    rw [isnan_any_map_some, isnan_any_map_some, values_map_some, values_map_some]
    simp [hcard, hfit]
  · decide!

/-- Witness for C1 at the fixture of the spec. -/
theorem slope_fit_linear_witness :
    polyfit_slope [0, 5, 10] [0, 10, 20] = 2 ∧
    window_slope ([0, 5, 10].map some) ([0, 10, 20].map some) = some 2 ∧
    window_slope [some 0, some 5, some 10] [some 0, some 10, some 20] = some 2 :=
  slope_fit_linear [0, 5, 10] [0, 10, 20] 2 0 (by decide)
    (by
      intro i hx hy
      have hi : i < 3 := by simpa using hx
      interval_cases i <;> norm_num)
    ⟨0, by simp, 5, by simp, by norm_num⟩

/-- C2. Protocol A sensitivity: on a sheet without fully-empty rows, for every
complete block of 5 rows, `Sens_DU` is defined exactly when the down window
(rows 0..2) and the up window (rows 2..4) have no missing `B_set`/`Vdiff_mean`
value and two distinct `B_set` values each; it is then the mean of the two
least-squares slopes, and all 5 rows of the block carry the same value. -/
theorem sens_du_spec (sheet : Frame) (hfull : ∀ r ∈ sheet, r.all_missing = false)
    (b : Nat) (hb : 5 * b + 4 < sheet.length) :
    ∃ df, segment 5 (dropna_all sheet) = some df ∧
        (spec_window_defined
            [field sheet Row.b_set (5 * b), field sheet Row.b_set (5 * b + 1),
              field sheet Row.b_set (5 * b + 2)]
            [field sheet Row.vdiff_mean (5 * b), field sheet Row.vdiff_mean (5 * b + 1),
              field sheet Row.vdiff_mean (5 * b + 2)] ∧
          spec_window_defined
            [field sheet Row.b_set (5 * b + 2), field sheet Row.b_set (5 * b + 3),
              field sheet Row.b_set (5 * b + 4)]
            [field sheet Row.vdiff_mean (5 * b + 2), field sheet Row.vdiff_mean (5 * b + 3),
              field sheet Row.vdiff_mean (5 * b + 4)] →
          ∀ j, j < 5 → cell (sens_du_column df) (5 * b + j) = some
            ((polyfit_slope
                (values [field sheet Row.b_set (5 * b), field sheet Row.b_set (5 * b + 1),
                  field sheet Row.b_set (5 * b + 2)])
                (values [field sheet Row.vdiff_mean (5 * b),
                  field sheet Row.vdiff_mean (5 * b + 1), field sheet Row.vdiff_mean (5 * b + 2)])
              + polyfit_slope
                (values [field sheet Row.b_set (5 * b + 2), field sheet Row.b_set (5 * b + 3),
                  field sheet Row.b_set (5 * b + 4)])
                (values [field sheet Row.vdiff_mean (5 * b + 2),
                  field sheet Row.vdiff_mean (5 * b + 3),
                  field sheet Row.vdiff_mean (5 * b + 4)])) / 2)) ∧
        (¬ (spec_window_defined
            [field sheet Row.b_set (5 * b), field sheet Row.b_set (5 * b + 1),
              field sheet Row.b_set (5 * b + 2)]
            [field sheet Row.vdiff_mean (5 * b), field sheet Row.vdiff_mean (5 * b + 1),
              field sheet Row.vdiff_mean (5 * b + 2)] ∧
          spec_window_defined
            [field sheet Row.b_set (5 * b + 2), field sheet Row.b_set (5 * b + 3),
              field sheet Row.b_set (5 * b + 4)]
            [field sheet Row.vdiff_mean (5 * b + 2), field sheet Row.vdiff_mean (5 * b + 3),
              field sheet Row.vdiff_mean (5 * b + 4)]) →
          ∀ j, j < 5 → cell (sens_du_column df) (5 * b + j) = none) := by
  have hne : sheet ≠ [] := by
    intro e
    rw [e] at hb
    simp at hb
  rw [dropna_all_eq_self sheet hfull]
  obtain ⟨df, hseg⟩ := segment_ne_none 5 (by norm_num) sheet hne
  obtain ⟨hlen, _⟩ := segment_spec 5 (by norm_num) sheet df hseg
  have hm := segment_measured 5 (by norm_num) sheet df hseg
  refine ⟨df, hseg, ?_⟩
  have hb' : 5 * b + 4 < df.length := by omega
  have hcell : ∀ j, j < 5 → cell (sens_du_column df) (5 * b + j) =
      sens_avg
        (window_slope
          [field sheet Row.b_set (5 * b), field sheet Row.b_set (5 * b + 1),
            field sheet Row.b_set (5 * b + 2)]
          [field sheet Row.vdiff_mean (5 * b), field sheet Row.vdiff_mean (5 * b + 1),
            field sheet Row.vdiff_mean (5 * b + 2)])
        (window_slope
          [field sheet Row.b_set (5 * b + 2), field sheet Row.b_set (5 * b + 3),
            field sheet Row.b_set (5 * b + 4)]
          [field sheet Row.vdiff_mean (5 * b + 2), field sheet Row.vdiff_mean (5 * b + 3),
            field sheet Row.vdiff_mean (5 * b + 4)]) := by
    intro j hj
    have hdiv : 5 * ((5 * b + j) / 5) = 5 * b := by omega
    rw [sens_du_cell, hdiv, if_pos hb']
    unfold sens_du_block
    dsimp only
    rw [block_down_window df _ _ hb', block_down_window df _ _ hb',
      block_up_window df _ _ hb', block_up_window df _ _ hb']
    simp only [(hm _).1, (hm _).2.1]
  constructor
  · rintro ⟨hd, hu⟩ j hj
    rw [hcell j hj, window_slope_eq, window_slope_eq, if_pos hd, if_pos hu]
    rfl
  · intro hnot j hj
    rw [hcell j hj, window_slope_eq, window_slope_eq]
    by_cases hd : spec_window_defined
        [field sheet Row.b_set (5 * b), field sheet Row.b_set (5 * b + 1),
          field sheet Row.b_set (5 * b + 2)]
        [field sheet Row.vdiff_mean (5 * b), field sheet Row.vdiff_mean (5 * b + 1),
          field sheet Row.vdiff_mean (5 * b + 2)]
    · rw [if_pos hd, if_neg (fun hu => hnot ⟨hd, hu⟩)]
      rfl
    · rw [if_neg hd]
      rfl

/-- Witness for C2: the first block of `updown_sheet` has slopes 2 (down) and 19/10
(up), so all its five rows carry 39/20. -/
theorem sens_du_spec_witness :
    (∀ r ∈ updown_sheet, r.all_missing = false) ∧ 5 * 0 + 4 < updown_sheet.length ∧
    ∃ df, segment 5 (dropna_all updown_sheet) = some df ∧
      ∀ j, j < 5 → cell (sens_du_column df) j = some (39 / 20) := by
  refine ⟨by decide!, by decide, ?_⟩
  obtain ⟨df, hseg, h⟩ := sens_du_spec updown_sheet (by decide!) 0 (by decide)
  refine ⟨df, hseg, ?_⟩
  intro j hj
  have hcell := h.1 ⟨by decide!, by decide!⟩ j hj
  have hval : (polyfit_slope
        (values [field updown_sheet Row.b_set (5 * 0), field updown_sheet Row.b_set (5 * 0 + 1),
          field updown_sheet Row.b_set (5 * 0 + 2)])
        (values [field updown_sheet Row.vdiff_mean (5 * 0),
          field updown_sheet Row.vdiff_mean (5 * 0 + 1),
          field updown_sheet Row.vdiff_mean (5 * 0 + 2)])
      + polyfit_slope
        (values [field updown_sheet Row.b_set (5 * 0 + 2),
          field updown_sheet Row.b_set (5 * 0 + 3), field updown_sheet Row.b_set (5 * 0 + 4)])
        (values [field updown_sheet Row.vdiff_mean (5 * 0 + 2),
          field updown_sheet Row.vdiff_mean (5 * 0 + 3),
          field updown_sheet Row.vdiff_mean (5 * 0 + 4)])) / 2 = 39 / 20 := by
    decide!
  rw [hval] at hcell
  simpa using hcell

/-- C4 as stated fails: row 5 is the first row of the second block and held axis 6
before segmentation, yet after segmentation it holds 2, the value of row `5 / 5 = 1`. -/
theorem header_propagation_counterexample :
    field c4_sheet Row.axis (5 * (5 / 5)) = some 6 ∧
    (segment 5 c4_sheet).map (fun out => field out Row.axis 5) = some (some 2) := by
  decide!

/-- C4 (amended). After segmentation with group size `g` (5, 7 or 3) a non-empty
sheet keeps its number of rows, and at every row `i` each of the four block-level
columns (axis, angle, stress, supply) holds the value that column had before
segmentation at row `floor(i/g)`. -/
theorem header_propagation (g : Nat) (hg : g = 5 ∨ g = 7 ∨ g = 3) (df : Frame)
    (hne : df ≠ []) :
    ∃ out, segment g df = some out ∧ out.length = df.length ∧
      ∀ i, i < df.length →
        field out Row.axis i = field df Row.axis (i / g) ∧
        field out Row.angle i = field df Row.angle (i / g) ∧
        field out Row.b_stress i = field df Row.b_stress (i / g) ∧
        field out Row.vdd i = field df Row.vdd (i / g) := by
  have hpos : 0 < g := by omega
  obtain ⟨out, hseg⟩ := segment_ne_none g hpos df hne
  obtain ⟨hlen, hrow⟩ := segment_spec g hpos df out hseg
  refine ⟨out, hseg, hlen, ?_⟩
  intro i hi
  obtain ⟨r, hr⟩ := exists_getElem?_of_lt df i hi
  obtain ⟨h, hh⟩ := exists_getElem?_of_lt df (i / g)
    (lt_of_le_of_lt (Nat.div_le_self i g) hi)
  simp [field, hrow i r h hr hh, hh]

/-- Witness for C4 (amended) on the six-row sheet. -/
theorem header_propagation_witness :
    ∃ out, segment 5 c4_sheet = some out ∧ out.length = c4_sheet.length ∧
      ∀ i, i < c4_sheet.length →
        field out Row.axis i = field c4_sheet Row.axis (i / 5) ∧
        field out Row.angle i = field c4_sheet Row.angle (i / 5) ∧
        field out Row.b_stress i = field c4_sheet Row.b_stress (i / 5) ∧
        field out Row.vdd i = field c4_sheet Row.vdd (i / 5) :=
  header_propagation 5 (Or.inl rfl) c4_sheet (by decide)

/-- C5 as stated fails: row 3 has its axis present and no input sample number; the
nearest preceding row with a sample number is row 2 (sample 2), yet the segmented
sheet gives row 3 the sample number 1 of the first row. -/
theorem sample_backfill_counterexample :
    field c5_sheet Row.sample_no 3 = none ∧
    field c5_sheet Row.sample_no 2 = some 2 ∧
    (segment 5 c5_sheet).map (fun out => (field out Row.axis 3, field out Row.sample_no 3))
      = some (some 1, some 1) := by
  decide!

/-- C5 (amended). After segmentation, a row whose axis is present and whose input
sample number was missing carries the input sample number of the first row of the
sheet (missing if that one is missing); a row whose axis is present and whose input
sample number was present keeps it; a row whose axis is missing has no sample
number. -/
theorem sample_backfill (g : Nat) (hg : g = 5 ∨ g = 7 ∨ g = 3) (df out : Frame)
    (hseg : segment g df = some out) (i : Nat) (hi : i < df.length) :
    (field out Row.axis i ≠ none → field df Row.sample_no i = none →
      field out Row.sample_no i = field df Row.sample_no 0) ∧
    (field out Row.axis i ≠ none → ∀ s, field df Row.sample_no i = some s →
      field out Row.sample_no i = some s) ∧
    (field out Row.axis i = none → field out Row.sample_no i = none) := by
  have hpos : 0 < g := by omega
  obtain ⟨_, hrow⟩ := segment_spec g hpos df out hseg
  obtain ⟨r, hr⟩ := exists_getElem?_of_lt df i hi
  obtain ⟨h, hh⟩ := exists_getElem?_of_lt df (i / g)
    (lt_of_le_of_lt (Nat.div_le_self i g) hi)
  have hout := hrow i r h hr hh
  simp only [field, hout, hr, Option.some_bind]
  refine ⟨?_, ?_, ?_⟩
  · intro hax hs
    cases hx : h.axis with
    | none => exact absurd hx hax
    | some a => simp [fillna, hs, field]
  · intro hax s hs
    cases hx : h.axis with
    | none => exact absurd hx hax
    | some a => simp [fillna, hs]
  · intro hax
    simp [hax]

/-- Witness for C5 (amended) on the four-row sheet, at its last row. -/
theorem sample_backfill_witness :
    (field ((segment 5 c5_sheet).getD []) Row.axis 3 ≠ none →
      field c5_sheet Row.sample_no 3 = none →
      field ((segment 5 c5_sheet).getD []) Row.sample_no 3 = field c5_sheet Row.sample_no 0) ∧
    (field ((segment 5 c5_sheet).getD []) Row.axis 3 ≠ none →
      ∀ s, field c5_sheet Row.sample_no 3 = some s →
        field ((segment 5 c5_sheet).getD []) Row.sample_no 3 = some s) ∧
    (field ((segment 5 c5_sheet).getD []) Row.axis 3 = none →
      field ((segment 5 c5_sheet).getD []) Row.sample_no 3 = none) :=
  sample_backfill 5 (Or.inl rfl) c5_sheet ((segment 5 c5_sheet).getD []) (by decide!) 3
    (by decide)

/-- C6. Protocol A offset: on a sheet without fully-empty rows, on the first row `i`
of every complete block of 5 rows `Off_DU` is `(vdiff_mean[i+1] + vdiff_mean[i+3])/2`
when both values are present and undefined when either is missing; on every other
row (rows of a trailing short block included) it is undefined. -/
theorem off_du_spec (sheet : Frame) (hfull : ∀ r ∈ sheet, r.all_missing = false)
    (i : Nat) (hi : i < sheet.length) :
    ∃ df, segment 5 (dropna_all sheet) = some df ∧
        (i % 5 = 0 ∧ i + 4 < sheet.length →
          (∀ p q, field sheet Row.vdiff_mean (i + 1) = some p →
            field sheet Row.vdiff_mean (i + 3) = some q →
            cell (off_du_column df) i = some ((p + q) / 2)) ∧
          (field sheet Row.vdiff_mean (i + 1) = none ∨
            field sheet Row.vdiff_mean (i + 3) = none →
            cell (off_du_column df) i = none)) ∧
        (¬ (i % 5 = 0 ∧ i + 4 < sheet.length) → cell (off_du_column df) i = none) := by
  have hne : sheet ≠ [] := by
    intro e
    rw [e] at hi
    simp at hi
  rw [dropna_all_eq_self sheet hfull]
  obtain ⟨df, hseg⟩ := segment_ne_none 5 (by norm_num) sheet hne
  obtain ⟨hlen, _⟩ := segment_spec 5 (by norm_num) sheet df hseg
  have hm := segment_measured 5 (by norm_num) sheet df hseg
  refine ⟨df, hseg, ?_⟩
  rw [off_du_cell, hlen, (hm _).2.1, (hm _).2.1]
  constructor
  · intro hi
    rw [if_pos hi]
    constructor
    · intro p q hp hq
      rw [hp, hq]
      rfl
    · rintro (h | h)
      · rw [h]
        rfl
      · rw [h]
        cases field sheet Row.vdiff_mean (i + 1) <;> rfl
  · intro hi
    rw [if_neg hi]

/-- Witness for C6: on `updown_sheet` the first block has offset `(10 + 12)/2 = 11`,
the second block misses `vdiff_mean[8]`, and rows 1 and 10 are not block starts. -/
theorem off_du_spec_witness :
    (∀ r ∈ updown_sheet, r.all_missing = false) ∧
    (∃ df, segment 5 (dropna_all updown_sheet) = some df ∧
      cell (off_du_column df) 0 = some 11) ∧
    (∃ df, segment 5 (dropna_all updown_sheet) = some df ∧
      cell (off_du_column df) 5 = none) ∧
    (∃ df, segment 5 (dropna_all updown_sheet) = some df ∧
      cell (off_du_column df) 1 = none) ∧
    (∃ df, segment 5 (dropna_all updown_sheet) = some df ∧
      cell (off_du_column df) 10 = none) := by
  refine ⟨by decide!, ?_, ?_, ?_, ?_⟩
  · obtain ⟨df, hseg, h⟩ := off_du_spec updown_sheet (by decide!) 0 (by decide)
    refine ⟨df, hseg, ?_⟩
    have := (h.1 (by decide)).1 10 12 (by decide!) (by decide!)
    rw [this]
    norm_num
  · obtain ⟨df, hseg, h⟩ := off_du_spec updown_sheet (by decide!) 5 (by decide)
    exact ⟨df, hseg, (h.1 (by decide)).2 (Or.inr (by decide!))⟩
  · obtain ⟨df, hseg, h⟩ := off_du_spec updown_sheet (by decide!) 1 (by decide)
    exact ⟨df, hseg, h.2 (by decide)⟩
  · obtain ⟨df, hseg, h⟩ := off_du_spec updown_sheet (by decide!) 10 (by decide)
    exact ⟨df, hseg, h.2 (by decide)⟩

/-- C7. Reference Resolver: for every (sample, axis) partition `k` and every derived
column, the reference is the first non-missing value, in row order, among the
partition's rows with stress exactly 10; there is none exactly when the partition
has no row at stress 10 with a value; and then the offset drift, respectively the
sensitivity drift, is undefined on every row of the partition. -/
theorem reference_resolver_spec (df : Frame) (k : ℚ × ℚ) :
    (∀ (col : Column) (v : ℚ), resolve_ref df col (group_indices df k) = some v ↔
      ∃ j : Nat, df[j]?.bind Row.key = some k ∧ field df Row.b_stress j = some 10 ∧
        cell col j = some v ∧
        ∀ j', j' < j → df[j']?.bind Row.key = some k → field df Row.b_stress j' = some 10 →
          cell col j' = none) ∧
    (∀ col : Column, resolve_ref df col (group_indices df k) = none ↔
      ∀ j : Nat, df[j]?.bind Row.key = some k → field df Row.b_stress j = some 10 →
        cell col j = none) ∧
    (resolve_ref df (off_du_column df) (group_indices df k) = none →
      ∀ j : Nat, df[j]?.bind Row.key = some k →
        cell (off_drift_column df (off_du_column df)) j = none) ∧
    (resolve_ref df (sens_du_column df) (group_indices df k) = none →
      ∀ j : Nat, df[j]?.bind Row.key = some k →
        cell (sens_drift_column df (sens_du_column df)) j = none) := by
  refine ⟨fun col v => resolve_ref_eq_some df col k v, fun col => resolve_ref_eq_none df col k,
    ?_, ?_⟩
  · intro href j hk
    rcases off_drift_cell_sound df (off_du_column df) j with h | h
    · exact h
    · rw [h, spec_off_drift_of_key df _ k j hk, href]
  · intro href j hk
    rw [sens_drift_cell]
    unfold spec_sens_drift
    rw [hk]
    dsimp only
    rw [href]

/-- C8 as stated fails: in `misaligned_sheet` the second block (row 5) has a defined
offset and its partition (7, 1) has a resolved reference, yet `Off_drift_DU` is
undefined on row 5, because row 1 carries another sample number and row 5 is the
fifth, not the sixth, row of the partition. -/
theorem off_drift_counterexample :
    (segment 5 (dropna_all misaligned_sheet)).map (fun df =>
      (df[5]?.bind Row.key, cell (off_du_column df) 5,
        resolve_ref df (off_du_column df) (group_indices df (7, 1)),
        cell (off_drift_column df (off_du_column df)) 5))
      = some (some (7, 1), some (23 / 2), some 11, none) := by
  decide!

/-- C8 (amended). Protocol A offset drift, for a segmented sheet in which the five
rows of every complete block carry the same (sample, axis) key: for every complete
block whose offset is defined and whose partition has a resolved reference offset,
`Off_drift_DU` on the block's first row is `block_offset - reference_offset`; on
every row that is not the first row of a complete block, and whenever the offset or
the reference is undefined, `Off_drift_DU` is undefined. -/
theorem off_drift_spec (df : Frame)
    (hhom : ∀ b t, 5 * b + 4 < df.length → t < 5 →
      df[5 * b + t]?.bind Row.key = df[5 * b]?.bind Row.key) :
    (∀ (b : Nat) (k : ℚ × ℚ) (r o : ℚ), 5 * b + 4 < df.length →
      df[5 * b]?.bind Row.key = some k →
      resolve_ref df (off_du_column df) (group_indices df k) = some r →
      cell (off_du_column df) (5 * b) = some o →
      cell (off_drift_column df (off_du_column df)) (5 * b) = some (o - r)) ∧
    (∀ j, ¬ (j % 5 = 0 ∧ j + 4 < df.length) →
      cell (off_drift_column df (off_du_column df)) j = none) ∧
    (∀ j, cell (off_du_column df) j = none →
      cell (off_drift_column df (off_du_column df)) j = none) ∧
    (∀ (j : Nat) (k : ℚ × ℚ), df[j]?.bind Row.key = some k →
      resolve_ref df (off_du_column df) (group_indices df k) = none →
      cell (off_drift_column df (off_du_column df)) j = none) := by
  have hundef : ∀ j, cell (off_du_column df) j = none →
      cell (off_drift_column df (off_du_column df)) j = none := by
    intro j hoff
    rcases off_drift_cell_sound df (off_du_column df) j with h | h
    · exact h
    · rw [h]
      unfold spec_off_drift
      split
      · rfl
      · rw [hoff]
        split
        · next ho => exact Option.noConfusion ho
        · rfl
  refine ⟨?_, ?_, hundef, ?_⟩
  · intro b k r o hb hk href hoff
    rw [off_drift_cell_aligned df _ k (5 * b) hk (rank_aligned_of_blocks df hhom b k hb hk),
      spec_off_drift_of_key df _ k _ hk, href, hoff]
  · intro j hj
    apply hundef
    rw [off_du_cell, if_neg hj]
  · intro j k hk href
    rcases off_drift_cell_sound df (off_du_column df) j with h | h
    · exact h
    · rw [h, spec_off_drift_of_key df _ k j hk, href]

/-- Witness for C8 (amended): in `aligned_frame` the second block has offset 23/2,
the reference of partition (7, 1) is 11, and the drift on row 5 is 1/2. -/
theorem off_drift_spec_witness :
    (∀ b t, 5 * b + 4 < aligned_frame.length → t < 5 →
      aligned_frame[5 * b + t]?.bind Row.key = aligned_frame[5 * b]?.bind Row.key) ∧
    cell (off_drift_column aligned_frame (off_du_column aligned_frame)) 5 = some (1 / 2) := by
  have hlen : aligned_frame.length = 10 := by decide!
  have hhom : ∀ b t, 5 * b + 4 < aligned_frame.length → t < 5 →
      aligned_frame[5 * b + t]?.bind Row.key = aligned_frame[5 * b]?.bind Row.key := by
    intro b t hb ht
    rw [hlen] at hb
    have hb2 : b < 2 := by omega
    interval_cases b <;> interval_cases t <;> decide!
  refine ⟨hhom, ?_⟩
  have h := (off_drift_spec aligned_frame hhom).1 1 (7, 1) 11 (23 / 2) (by decide!) (by decide!)
    (by decide!) (by decide!)
  rw [h]
  norm_num

/-- C9. Protocol A sensitivity drift: for every row `j` of a (sample, axis) partition
`k`, `Sens_drift_DU` is defined exactly when the row's `Sens_DU` is defined, the
partition has a resolved reference sensitivity and that reference is not 0; it is
then `(Sens_DU - reference) / reference * 100`. A reference of exactly 0 leaves the
drift undefined on the whole partition. -/
theorem sens_drift_spec (df : Frame) (j : Nat) (k : ℚ × ℚ)
    (hk : df[j]?.bind Row.key = some k) :
    (∀ v, cell (sens_drift_column df (sens_du_column df)) j = some v ↔
      ∃ s r, cell (sens_du_column df) j = some s ∧
        resolve_ref df (sens_du_column df) (group_indices df k) = some r ∧ r ≠ 0 ∧
        v = (s - r) / r * 100) ∧
    (resolve_ref df (sens_du_column df) (group_indices df k) = some 0 →
      cell (sens_drift_column df (sens_du_column df)) j = none) := by
  rw [sens_drift_cell]
  unfold spec_sens_drift
  rw [hk]
  dsimp only
  cases hr : resolve_ref df (sens_du_column df) (group_indices df k) with
  | none => simp
  | some r =>
    cases hs : cell (sens_du_column df) j with
    | none => simp
    | some s =>
      by_cases hr0 : r = 0
      · simp [hr0]
      · simp [hr0]
        intro v
        constructor
        · intro h; exact h.symm
        · intro h; exact h.symm

/-- Witness for C9: row 5 of `aligned_frame` belongs to partition (7, 1). -/
theorem sens_drift_spec_witness :
    aligned_frame[5]?.bind Row.key = some (7, 1) ∧
    (∀ v, cell (sens_drift_column aligned_frame (sens_du_column aligned_frame)) 5 = some v ↔
      ∃ s r, cell (sens_du_column aligned_frame) 5 = some s ∧
        resolve_ref aligned_frame (sens_du_column aligned_frame)
          (group_indices aligned_frame (7, 1)) = some r ∧ r ≠ 0 ∧
        v = (s - r) / r * 100) ∧
    (resolve_ref aligned_frame (sens_du_column aligned_frame)
        (group_indices aligned_frame (7, 1)) = some 0 →
      cell (sens_drift_column aligned_frame (sens_du_column aligned_frame)) 5 = none) :=
  ⟨by decide!, sens_drift_spec aligned_frame 5 (7, 1) (by decide!)⟩

/-- C10. Summary Extractor of protocol A: the Offset entries are exactly the rows
of the final offset table with field set 47, stress below 120 and a defined offset
drift of absolute value above 2.5, in table order; the Sensitivity entries are
exactly the rows of the final sensitivity table with stress below 120 and a defined
sensitivity drift of absolute value above 3, in table order. The thresholds are
strict: a drift of 2.5 or -2.5 is not reported, 2.50001 is. -/
theorem summary_criteria (vdiff_df : List VdiffRecord) (sens_df : List SensRecord) :
    summary_vdiff vdiff_df =
      (vdiff_df.filter (fun row => decide (spec_offset_flagged row))).map offset_entry ∧
    summary_sens sens_df =
      (sens_df.filter (fun row => decide (spec_sens_flagged row))).map sens_entry ∧
    summary_vdiff [drift_row 2.5] = [] ∧
    summary_vdiff [drift_row (-2.5)] = [] ∧
    summary_vdiff [drift_row 2.50001] = [offset_entry (drift_row 2.50001)] := by
  refine ⟨summary_vdiff_eq vdiff_df, summary_sens_eq sens_df, ?_, ?_, ?_⟩
  · decide!
  · decide!
  · decide!

/-- C14. Code Mapper idempotence: for every `Vdiff_data` and `Sensitivity_data`
table and every pair of mappings from integer codes to string labels, applying the
Code Mapper twice gives the same table as applying it once; a label already written
is never a key; a cell whose value is a key becomes its label, a cell whose value is
not a key is unchanged, and the other columns and the number of rows are
unchanged. -/
theorem code_mapper_idempotent (sample_mapping axis_mapping : CodeMapping)
    (vt : List VdiffRecord) (st : List SensRecord) :
    code_mapper_vdiff sample_mapping axis_mapping
        (code_mapper_vdiff sample_mapping axis_mapping vt) =
      code_mapper_vdiff sample_mapping axis_mapping vt ∧
    code_mapper_sens sample_mapping axis_mapping
        (code_mapper_sens sample_mapping axis_mapping st) =
      code_mapper_sens sample_mapping axis_mapping st ∧
    (∀ (m : CodeMapping) (label : String), mapping_get m (Cell.str label) = none) ∧
    (∀ (m : CodeMapping) (value : Cell) (label : String),
      mapping_get m value = some label → map_cell m value = Cell.str label) ∧
    (∀ (m : CodeMapping) (value : Cell), mapping_get m value = none → map_cell m value = value) ∧
    (code_mapper_vdiff sample_mapping axis_mapping vt).map
        (fun row => { row with sample_no := Cell.empty, plane := Cell.empty }) =
      vt.map (fun row => { row with sample_no := Cell.empty, plane := Cell.empty }) ∧
    (code_mapper_sens sample_mapping axis_mapping st).map
        (fun row => { row with sample_no := Cell.empty, plane := Cell.empty }) =
      st.map (fun row => { row with sample_no := Cell.empty, plane := Cell.empty }) := by
  refine ⟨?_, ?_, ?_, ?_, ?_, ?_, ?_⟩
  · unfold code_mapper_vdiff
    rw [List.map_map]
    apply List.map_congr_left
    intro row _
    simp only [Function.comp, map_cell_idem]
  · unfold code_mapper_sens
    rw [List.map_map]
    apply List.map_congr_left
    intro row _
    simp only [Function.comp, map_cell_idem]
  · intro m label
    rfl
  · intro m value label h
    unfold map_cell
    rw [h]
  · intro m value h
    unfold map_cell
    rw [h]
  · unfold code_mapper_vdiff
    rw [List.map_map]
    rfl
  · unfold code_mapper_sens
    rw [List.map_map]
    rfl

/-- C16 as stated fails: the only processed sheet of `hollow_workbook` contributes a
per-sheet `Vdiff_data` table of 6 rows, the final table has 5: the sixth row is
empty in every column after segmentation and is dropped before output. -/
theorem orchestrator_counterexample :
    (spec_selected hollow_workbook).map
        (fun sh => (process_sheet_updown sh).map (fun t => t.1.length)) = [some 6] ∧
    (process_excel_file_updown hollow_workbook).map (fun out => out.1.length) = some 5 := by
  decide!

/-- C16 (amended). For every workbook whose run completes, the final
`Sensitivity_data` table is the concatenation, in sheet order, of the per-sheet
tables of exactly the sheets at position 2 or later whose lower-cased name does not
contain `"precon"`, and the final `Vdiff_data` table is that concatenation with the
rows that are empty in every column removed; the contribution of a sheet depends on
its rows alone. -/
theorem orchestrator_spec (workbook : List Sheet)
    (out : List VdiffRecord × List SensRecord)
    (hrun : process_excel_file_updown workbook = some out) :
    (∃ ts : List (List VdiffRecord × List SensRecord),
      (spec_selected workbook).map process_sheet_updown = ts.map some ∧
      out.1 = ((ts.map Prod.fst).flatten).filter (fun r => !r.all_empty) ∧
      out.2 = (ts.map Prod.snd).flatten) ∧
    (∀ sh sh' : Sheet, sh.table = sh'.table →
      process_sheet_updown sh = process_sheet_updown sh') ∧
    spec_selected workbook =
      (workbook.drop 2).filter
        (fun sheet => !decide (List.IsInfix "precon".toList (py_lower sheet.name.toList))) := by
  refine ⟨process_excel_file_updown_eq workbook out hrun, ?_, rfl⟩
  intro sh sh' h
  unfold process_sheet_updown
  rw [h]

/-- Witness for C16 (amended): `good_workbook` completes; its two processed sheets
contribute 10 + 11 rows to `Vdiff_data` and 2 + 1 rows to `Sensitivity_data`. -/
theorem orchestrator_spec_witness :
    (process_excel_file_updown good_workbook).isSome ∧
    ∃ ts : List (List VdiffRecord × List SensRecord),
      (spec_selected good_workbook).map process_sheet_updown = ts.map some ∧
      ((process_excel_file_updown good_workbook).getD ([], [])).1 =
        ((ts.map Prod.fst).flatten).filter (fun r => !r.all_empty) ∧
      ((process_excel_file_updown good_workbook).getD ([], [])).2 =
        (ts.map Prod.snd).flatten :=
  ⟨by decide!,
    (orchestrator_spec good_workbook ((process_excel_file_updown good_workbook).getD ([], []))
      (by decide!)).1⟩

end WebPy
